import Mathlib

set_option maxRecDepth 100000

/-!
Verification of the lumenitos-swap concentrated-liquidity pool engine.

This file shallowly embeds the Rust sources of the repository
(`src/libs/dex-math`, `src/libs/dex-types`, `src/contracts/dex-pool`) into
Lean.  Conventions used throughout:

* `u128` values are modelled as `ℕ`, `i128` values as `ℤ`.  All ordinary
  Rust arithmetic (`+`, `-`, `*`) is modelled as checked arithmetic: the
  operation fails (the surrounding function returns `none`) when the exact
  result leaves the range of the machine type.  This matches the Soroban
  build profile of the repository (overflow checks enabled) and the error
  policy of the design document, which declares every arithmetic failure
  fatal to the current operation.
* Rust `as` casts between `u128` and `i128` never trap; they reinterpret
  the value modulo `2^128`.  They are modelled by `castU128toI128` and
  `castI128toU128` below.
* Rust `<<` on `u128` silently discards the bits shifted beyond position
  127 (that is, the value is reduced modulo `2^128`), but traps when the
  shift amount itself is `≥ 128`.
* Functions that can reach a Rust `panic` (explicit panics, checked
  arithmetic, division by zero, conversion overflow) return `Option`,
  with `none` for the panicking executions.
* Soroban `U256` intermediates are exact: every `U256` computation in the
  embedded code stays below `2^256`, so they are modelled by exact natural
  arithmetic.
* Soroban storage is modelled by total maps to `Option` of the entry type,
  `none` meaning that the entry is absent from storage.
-/

/-- Largest value of the Rust type u128. -/
def U128MAX : ℕ := 2 ^ 128 - 1

/-- Largest value of the Rust type i128 (as an integer). -/
def I128MAX : ℤ := 2 ^ 127 - 1

/-- Smallest value of the Rust type i128 (as an integer). -/
def I128MIN : ℤ := -(2 ^ 127)

/-- Checked u128 arithmetic: fails when the exact value overflows u128. -/
def chkU128 (n : ℕ) : Option ℕ := if U128MAX < n then none else some n

/-- Checked i128 arithmetic: fails when the exact value leaves the i128 range. -/
def chkI128 (z : ℤ) : Option ℤ := if z < I128MIN ∨ I128MAX < z then none else some z

/-- Rust cast `x as i128` for `x : u128`: reinterpret the bit pattern. -/
def castU128toI128 (n : ℕ) : ℤ := if n < 2 ^ 127 then (n : ℤ) else (n : ℤ) - 2 ^ 128

/-- Rust cast `x as u128` for `x : i128`: reinterpret the bit pattern. -/
def castI128toU128 (z : ℤ) : ℕ := (z % 2 ^ 128).toNat

/-- Value truncation performed by Rust `<<` on u128 (bits above 127 are lost). -/
def wrapU128 (n : ℕ) : ℕ := n % 2 ^ 128

-- ===========================================================================
-- dex-types: constants (src/libs/dex-types/src/lib.rs)
-- ===========================================================================

/-- Q96 constant (2^96) for fixed-point math. -/
def Q96 : ℕ := 2 ^ 96

/-- Minimum tick index. -/
def MIN_TICK : ℤ := -443636

/-- Maximum tick index. -/
def MAX_TICK : ℤ := 443636

/-- Minimum sqrt price constant of the repository. -/
def MIN_SQRT_RATIO : ℕ := 18446743374134

/-- Maximum sqrt price constant of the repository. -/
def MAX_SQRT_RATIO : ℕ := 340275971719517849884101479065584693834

/-- Cap on tick crossings per swap (src/contracts/dex-pool/src/storage.rs). -/
def MAX_TICK_CROSSINGS_PER_SWAP : ℕ := 40

namespace DexMath

-- ===========================================================================
-- full_math.rs
-- ===========================================================================

/-- `mul_div`: floor of `a * b / d` with a 256-bit intermediate; fails on a
zero denominator and when the quotient does not fit in u128. -/
def mul_div (a b d : ℕ) : Option ℕ :=
  if d = 0 then none
  else
    let q := a * b / d
    if U128MAX < q then none else some q

/-- `mul_div_rounding_up`: `mul_div` plus one when the division has a
remainder; the increment itself is a checked u128 addition. -/
def mul_div_rounding_up (a b d : ℕ) : Option ℕ := do
  let r ← mul_div a b d
  if 0 < a * b % d then chkU128 (r + 1) else some r

/-- `div_rounding_up`: ceiling of `a / b`, failing on a zero denominator. -/
def div_rounding_up (a b : ℕ) : Option ℕ :=
  if b = 0 then none
  else if a = 0 then some 0
  else some ((a - 1) / b + 1)

-- ===========================================================================
-- liquidity_math.rs
-- ===========================================================================

/-- `add_delta`: add a signed liquidity delta to an unsigned liquidity,
failing on underflow and overflow (the negation of the delta is itself a
checked i128 negation). -/
def add_delta (liquidity : ℕ) (delta : ℤ) : Option ℕ :=
  if delta < 0 then
    if delta = I128MIN then none
    else if liquidity < (-delta).toNat then none
    else some (liquidity - (-delta).toNat)
  else chkU128 (liquidity + delta.toNat)

/-- Helper shared by the amount routines of liquidity_math.rs: order a pair
of sqrt prices. -/
def sortRatios (a b : ℕ) : ℕ × ℕ := if b < a then (b, a) else (a, b)

/-- `get_amount0_for_liquidity`: `mul_div(liquidity << 96, upper - lower,
upper) / lower`, with the plain u128 division failing when `lower = 0`. -/
def get_amount0_for_liquidity (a b liquidity : ℕ) : Option ℕ := do
  let (lower, upper) := sortRatios a b
  let q ← mul_div (wrapU128 (liquidity * 2 ^ 96)) (upper - lower) upper
  if lower = 0 then none else some (q / lower)

/-- `get_amount1_for_liquidity`: `mul_div(liquidity, upper - lower, Q96)`. -/
def get_amount1_for_liquidity (a b liquidity : ℕ) : Option ℕ :=
  let (lower, upper) := sortRatios a b
  mul_div liquidity (upper - lower) Q96

/-- `get_amounts_for_liquidity`: dispatch on the position of the current
price relative to the range. -/
def get_amounts_for_liquidity (p a b liquidity : ℕ) : Option (ℕ × ℕ) := do
  let (lower, upper) := sortRatios a b
  if p ≤ lower then
    let amount0 ← get_amount0_for_liquidity lower upper liquidity
    pure (amount0, 0)
  else if p < upper then
    let amount0 ← get_amount0_for_liquidity p upper liquidity
    let amount1 ← get_amount1_for_liquidity lower p liquidity
    pure (amount0, amount1)
  else
    let amount1 ← get_amount1_for_liquidity lower upper liquidity
    pure (0, amount1)

-- ===========================================================================
-- sqrt_price_math.rs
-- ===========================================================================

/-- `get_amount0_delta`: `L * (pb - pa) / (pa * pb)` in Q96 math with a
rounding flag; fails when the smaller ratio is zero. -/
def get_amount0_delta (a b liquidity : ℕ) (round_up : Bool) : Option ℕ := do
  let (lower, upper) := sortRatios a b
  let numerator1 := wrapU128 (liquidity * 2 ^ 96)
  let numerator2 := upper - lower
  if lower = 0 then none
  else if round_up then do
    let x ← mul_div_rounding_up numerator1 numerator2 upper
    div_rounding_up x lower
  else do
    let x ← mul_div numerator1 numerator2 upper
    pure (x / lower)

/-- `get_amount1_delta`: `L * (pb - pa) / 2^96` with a rounding flag. -/
def get_amount1_delta (a b liquidity : ℕ) (round_up : Bool) : Option ℕ :=
  let (lower, upper) := sortRatios a b
  if round_up then mul_div_rounding_up liquidity (upper - lower) Q96
  else mul_div liquidity (upper - lower) Q96

/-- `get_next_sqrt_price_from_amount0_rounding_up`.  The fast path uses
checked u128 multiplication and addition and falls back to an exact 256-bit
computation (whose final conversion and increment are checked); the
`remove` direction fails when the denominator would underflow. -/
def get_next_sqrt_price_from_amount0_rounding_up
    (sqrt_price liquidity amount : ℕ) (add : Bool) : Option ℕ :=
  if amount = 0 then some sqrt_price
  else
    let numerator1 := wrapU128 (liquidity * 2 ^ 96)
    if add then
      if amount * sqrt_price ≤ U128MAX ∧ numerator1 + amount * sqrt_price ≤ U128MAX ∧
          numerator1 ≤ numerator1 + amount * sqrt_price then
        mul_div_rounding_up numerator1 sqrt_price (numerator1 + amount * sqrt_price)
      else do
        let product := amount * sqrt_price
        let denominator := numerator1 + product
        let r ← chkU128 (numerator1 * sqrt_price / denominator)
        chkU128 (r + 1)
    else
      if amount * sqrt_price ≤ U128MAX ∧ amount * sqrt_price < numerator1 then
        mul_div_rounding_up numerator1 sqrt_price (numerator1 - amount * sqrt_price)
      else none

/-- `get_next_sqrt_price_from_amount1_rounding_down`. -/
def get_next_sqrt_price_from_amount1_rounding_down
    (sqrt_price liquidity amount : ℕ) (add : Bool) : Option ℕ :=
  if add then do
    let quotient ←
      if amount ≤ U128MAX / 2 ^ 96 then
        if liquidity = 0 then none else some (wrapU128 (amount * 2 ^ 96) / liquidity)
      else mul_div amount Q96 liquidity
    chkU128 (sqrt_price + quotient)
  else do
    let quotient ←
      if amount ≤ U128MAX / 2 ^ 96 then div_rounding_up (wrapU128 (amount * 2 ^ 96)) liquidity
      else mul_div_rounding_up amount Q96 liquidity
    if sqrt_price ≤ quotient then none else some (sqrt_price - quotient)

/-- `get_next_sqrt_price_from_input`. -/
def get_next_sqrt_price_from_input
    (sqrt_price liquidity amount_in : ℕ) (zero_for_one : Bool) : Option ℕ :=
  if sqrt_price = 0 ∨ liquidity = 0 then none
  else if zero_for_one then
    get_next_sqrt_price_from_amount0_rounding_up sqrt_price liquidity amount_in true
  else
    get_next_sqrt_price_from_amount1_rounding_down sqrt_price liquidity amount_in true

/-- `get_next_sqrt_price_from_output`. -/
def get_next_sqrt_price_from_output
    (sqrt_price liquidity amount_out : ℕ) (zero_for_one : Bool) : Option ℕ :=
  if sqrt_price = 0 ∨ liquidity = 0 then none
  else if zero_for_one then
    get_next_sqrt_price_from_amount1_rounding_down sqrt_price liquidity amount_out false
  else
    get_next_sqrt_price_from_amount0_rounding_up sqrt_price liquidity amount_out false

end DexMath

-- sanity examples for the arithmetic primitives
example : DexMath.mul_div 7 11 13 = some 5 := by decide
example : DexMath.mul_div_rounding_up 7 11 13 = some 6 := by decide
example : DexMath.mul_div 10 20 0 = none := by decide
example : DexMath.div_rounding_up 10 3 = some 4 := by decide
example : DexMath.add_delta 100 (-50) = some 50 := by decide
example : DexMath.add_delta 100 (-101) = none := by decide

namespace TickMath

-- ===========================================================================
-- tick_math.rs
-- ===========================================================================

-- Precomputed constants `sqrt(1.0001^(2^i))` in Q128 format (hex in the
-- source; written here in decimal).
/-- Source constant 0xfffcb933bd6fad37aa2d162d1a594001. -/
def SQRT_1_0001_1 : ℕ := 0xfffcb933bd6fad37aa2d162d1a594001

/-- Source constant 0xfff97272373d413259a46990580e213a. -/
def SQRT_1_0001_2 : ℕ := 0xfff97272373d413259a46990580e213a

/-- Source constant 0xfff2e50f5f656932ef12357cf3c7fdcc. -/
def SQRT_1_0001_4 : ℕ := 0xfff2e50f5f656932ef12357cf3c7fdcc

/-- Source constant 0xffe5caca7e10e4e61c3624eaa0941cd0. -/
def SQRT_1_0001_8 : ℕ := 0xffe5caca7e10e4e61c3624eaa0941cd0

/-- Source constant 0xffcb9843d60f6159c9db58835c926644. -/
def SQRT_1_0001_16 : ℕ := 0xffcb9843d60f6159c9db58835c926644

/-- Source constant 0xff973b41fa98c081472e6896dfb254c0. -/
def SQRT_1_0001_32 : ℕ := 0xff973b41fa98c081472e6896dfb254c0

/-- Source constant 0xff2ea16466c96a3843ec78b326b52861. -/
def SQRT_1_0001_64 : ℕ := 0xff2ea16466c96a3843ec78b326b52861

/-- Source constant 0xfe5dee046a99a2a811c461f1969c3053. -/
def SQRT_1_0001_128 : ℕ := 0xfe5dee046a99a2a811c461f1969c3053

/-- Source constant 0xfcbe86c7900a88aedcffc83b479aa3a4. -/
def SQRT_1_0001_256 : ℕ := 0xfcbe86c7900a88aedcffc83b479aa3a4

/-- Source constant 0xf987a7253ac413176f2b074cf7815e54. -/
def SQRT_1_0001_512 : ℕ := 0xf987a7253ac413176f2b074cf7815e54

/-- Source constant 0xf3392b0822b70005940c7a398e4b70f3. -/
def SQRT_1_0001_1024 : ℕ := 0xf3392b0822b70005940c7a398e4b70f3

/-- Source constant 0xe7159475a2c29b7443b29c7fa6e889d9. -/
def SQRT_1_0001_2048 : ℕ := 0xe7159475a2c29b7443b29c7fa6e889d9

/-- Source constant 0xd097f3bdfd2022b8845ad8f792aa5825. -/
def SQRT_1_0001_4096 : ℕ := 0xd097f3bdfd2022b8845ad8f792aa5825

/-- Source constant 0xa9f746462d870fdf8a65dc1f90e061e5. -/
def SQRT_1_0001_8192 : ℕ := 0xa9f746462d870fdf8a65dc1f90e061e5

/-- Source constant 0x70d869a156d2a1b890bb3df62baf32f7. -/
def SQRT_1_0001_16384 : ℕ := 0x70d869a156d2a1b890bb3df62baf32f7

/-- Source constant 0x31be135f97d08fd981231505542fcfa6. -/
def SQRT_1_0001_32768 : ℕ := 0x31be135f97d08fd981231505542fcfa6

/-- Source constant 0x9aa508b5b7a84e1c677de54f3e99bc9. -/
def SQRT_1_0001_65536 : ℕ := 0x9aa508b5b7a84e1c677de54f3e99bc9

/-- Source constant 0x5d6af8dedb81196699c329225ee604. -/
def SQRT_1_0001_131072 : ℕ := 0x5d6af8dedb81196699c329225ee604

/-- Source constant 0x2216e584f5fa1ea926041bedfe98. -/
def SQRT_1_0001_262144 : ℕ := 0x2216e584f5fa1ea926041bedfe98

/-- `mul_shift_128`: multiply two Q128 values and shift right by 128 bits.
Both operands stay below `2^128`, so the 256-bit intermediate is exact. -/
def mul_shift_128 (x y : ℕ) : ℕ := x * y / 2 ^ 128

/-- The bit-selected product accumulation inside `get_sqrt_ratio_at_tick`,
applied to `abs_tick`.  The source writes the masks in hex
(`0x1`, `0x2`, ..., `0x40000`); they are written here as the equal powers
of two.  The starting value is the Q128 representation of one. -/
def ratioAcc (a : ℕ) : ℕ :=
  let r := 2 ^ 128
  let r := if a &&& 2 ^ 0 != 0 then mul_shift_128 r SQRT_1_0001_1 else r
  let r := if a &&& 2 ^ 1 != 0 then mul_shift_128 r SQRT_1_0001_2 else r
  let r := if a &&& 2 ^ 2 != 0 then mul_shift_128 r SQRT_1_0001_4 else r
  let r := if a &&& 2 ^ 3 != 0 then mul_shift_128 r SQRT_1_0001_8 else r
  let r := if a &&& 2 ^ 4 != 0 then mul_shift_128 r SQRT_1_0001_16 else r
  let r := if a &&& 2 ^ 5 != 0 then mul_shift_128 r SQRT_1_0001_32 else r
  let r := if a &&& 2 ^ 6 != 0 then mul_shift_128 r SQRT_1_0001_64 else r
  let r := if a &&& 2 ^ 7 != 0 then mul_shift_128 r SQRT_1_0001_128 else r
  let r := if a &&& 2 ^ 8 != 0 then mul_shift_128 r SQRT_1_0001_256 else r
  let r := if a &&& 2 ^ 9 != 0 then mul_shift_128 r SQRT_1_0001_512 else r
  let r := if a &&& 2 ^ 10 != 0 then mul_shift_128 r SQRT_1_0001_1024 else r
  let r := if a &&& 2 ^ 11 != 0 then mul_shift_128 r SQRT_1_0001_2048 else r
  let r := if a &&& 2 ^ 12 != 0 then mul_shift_128 r SQRT_1_0001_4096 else r
  let r := if a &&& 2 ^ 13 != 0 then mul_shift_128 r SQRT_1_0001_8192 else r
  let r := if a &&& 2 ^ 14 != 0 then mul_shift_128 r SQRT_1_0001_16384 else r
  let r := if a &&& 2 ^ 15 != 0 then mul_shift_128 r SQRT_1_0001_32768 else r
  let r := if a &&& 2 ^ 16 != 0 then mul_shift_128 r SQRT_1_0001_65536 else r
  let r := if a &&& 2 ^ 17 != 0 then mul_shift_128 r SQRT_1_0001_131072 else r
  let r := if a &&& 2 ^ 18 != 0 then mul_shift_128 r SQRT_1_0001_262144 else r
  r

/-- The total body of `get_sqrt_ratio_at_tick` after the bounds check:
bit-selected product, inversion for positive ticks, conversion from Q128 to
Q96, `to_u128().unwrap_or(u128::MAX)`, and the final clamp. -/
def sqrtRatioRaw (tick : ℤ) : ℕ :=
  let ratio := ratioAcc tick.natAbs
  let ratio := if 0 < tick then (2 ^ 256 - 1) / ratio else ratio
  let result := ratio / 2 ^ 32
  let result := if U128MAX < result then U128MAX else result
  min (max result MIN_SQRT_RATIO) MAX_SQRT_RATIO

/-- `get_sqrt_ratio_at_tick`: fails (panics) outside the tick domain. -/
def get_sqrt_ratio_at_tick (tick : ℤ) : Option ℕ :=
  if tick < MIN_TICK ∨ MAX_TICK < tick then none else some (sqrtRatioRaw tick)

/-- The binary-search loop of `get_tick_at_sqrt_ratio`, with explicit fuel
standing in for the Rust `while` loop.  The midpoint uses i32 division,
which truncates toward zero (`Int.tdiv`). -/
def tickSearch : ℕ → ℤ → ℤ → ℕ → Option ℤ
  | 0, _, _, _ => none
  | fuel + 1, low, high, p =>
    if low < high then do
      let mid := Int.tdiv (low + high + 1) 2
      let s ← get_sqrt_ratio_at_tick mid
      if s ≤ p then tickSearch fuel mid high p else tickSearch fuel low (mid - 1) p
    else some low

/-- `get_tick_at_sqrt_ratio`: domain check, then binary search over the full
tick range.  The fuel exceeds the width of the search interval, so the
recursion never runs out of fuel on inputs that pass the domain check. -/
def get_tick_at_sqrt_ratio (sqrt_price : ℕ) : Option ℤ :=
  if sqrt_price < MIN_SQRT_RATIO ∨ MAX_SQRT_RATIO ≤ sqrt_price then none
  else tickSearch 887273 MIN_TICK MAX_TICK sqrt_price

-- ===========================================================================
-- Proof infrastructure for ratioAcc: the 19-step chain as a fold, split
-- into the low 9 bits and the high 10 bits of abs_tick.
-- ===========================================================================

/-- One step of the product chain, as a function of a (constant, condition)
pair. -/
def stepMul (r : ℕ) (e : ℕ × Bool) : ℕ := if e.2 then mul_shift_128 r e.1 else r

/-- Fold of `stepMul` over a list of steps. -/
def chainMul (r : ℕ) (l : List (ℕ × Bool)) : ℕ := l.foldl stepMul r

/-- The first nine steps of `ratioAcc` (bits 0 to 8 of `abs_tick`). -/
def loPart (a : ℕ) : List (ℕ × Bool) :=
  [(SQRT_1_0001_1, a &&& 2 ^ 0 != 0), (SQRT_1_0001_2, a &&& 2 ^ 1 != 0),
   (SQRT_1_0001_4, a &&& 2 ^ 2 != 0), (SQRT_1_0001_8, a &&& 2 ^ 3 != 0),
   (SQRT_1_0001_16, a &&& 2 ^ 4 != 0), (SQRT_1_0001_32, a &&& 2 ^ 5 != 0),
   (SQRT_1_0001_64, a &&& 2 ^ 6 != 0), (SQRT_1_0001_128, a &&& 2 ^ 7 != 0),
   (SQRT_1_0001_256, a &&& 2 ^ 8 != 0)]

/-- The last ten steps of `ratioAcc` (bits 9 to 18 of `abs_tick`). -/
def hiPart (a : ℕ) : List (ℕ × Bool) :=
  [(SQRT_1_0001_512, a &&& 2 ^ 9 != 0), (SQRT_1_0001_1024, a &&& 2 ^ 10 != 0),
   (SQRT_1_0001_2048, a &&& 2 ^ 11 != 0), (SQRT_1_0001_4096, a &&& 2 ^ 12 != 0),
   (SQRT_1_0001_8192, a &&& 2 ^ 13 != 0), (SQRT_1_0001_16384, a &&& 2 ^ 14 != 0),
   (SQRT_1_0001_32768, a &&& 2 ^ 15 != 0), (SQRT_1_0001_65536, a &&& 2 ^ 16 != 0),
   (SQRT_1_0001_131072, a &&& 2 ^ 17 != 0), (SQRT_1_0001_262144, a &&& 2 ^ 18 != 0)]

/-- Value of the chain after the low nine steps. -/
def loAcc (a : ℕ) : ℕ := chainMul (2 ^ 128) (loPart a)

/-- Value of the chain after the high ten steps, from a given start. -/
def hiAcc (a r : ℕ) : ℕ := chainMul r (hiPart a)

theorem ratioAcc_eq_hi_lo (a : ℕ) : ratioAcc a = hiAcc a (loAcc a) := rfl

end TickMath

example : TickMath.ratioAcc 0 = 2 ^ 128 := by decide
example : TickMath.sqrtRatioRaw 0 = 2 ^ 96 := by decide
example : TickMath.sqrtRatioRaw 1 = 79232123823359799118286999567 := by decide
example : TickMath.sqrtRatioRaw (-1) = 79224201403219477170569942573 := by decide
example : TickMath.sqrtRatioRaw (-443636) = 18447090764788882727 := by decide
example : TickMath.sqrtRatioRaw 443636 = MAX_SQRT_RATIO - 1 := by decide

namespace TickMath

theorem chainMul_mono {x y : ℕ} (l : List (ℕ × Bool)) (h : x ≤ y) :
    chainMul x l ≤ chainMul y l := by
  induction l generalizing x y with
  | nil => exact h
  | cons e es ih =>
    refine ih ?_
    unfold stepMul
    split
    · exact Nat.div_le_div_right (Nat.mul_le_mul_right _ h)
    · exact h

theorem chainMul_superadd (x y : ℕ) (l : List (ℕ × Bool)) :
    chainMul x l + chainMul y l ≤ chainMul (x + y) l := by
  induction l generalizing x y with
  | nil => exact le_rfl
  | cons e es ih =>
    refine le_trans (ih _ _) (chainMul_mono es ?_)
    unfold stepMul
    split
    · unfold mul_shift_128
      rw [Nat.add_mul]
      exact Nat.add_div_le_add_div _ _ _
    · exact le_rfl

theorem chainMul_le_self (x : ℕ) (l : List (ℕ × Bool))
    (h : ∀ e ∈ l, e.1 ≤ 2 ^ 128) : chainMul x l ≤ x := by
  induction l generalizing x with
  | nil => exact le_rfl
  | cons e es ih =>
    refine le_trans (ih _ fun f hf => h f (List.mem_cons_of_mem _ hf)) ?_
    unfold stepMul
    split
    · unfold mul_shift_128
      calc x * e.1 / 2 ^ 128 ≤ x * 2 ^ 128 / 2 ^ 128 :=
            Nat.div_le_div_right (Nat.mul_le_mul_left _ (h e (List.mem_cons_self _ _)))
        _ = x := Nat.mul_div_cancel x (by norm_num)
    · exact le_rfl

theorem testBit_eq_of_mod {a b n k : ℕ} (h : a % 2 ^ n = b % 2 ^ n) (hk : k < n) :
    a.testBit k = b.testBit k := by
  have ha := Nat.testBit_mod_two_pow a n k
  have hb := Nat.testBit_mod_two_pow b n k
  rw [h, hb] at ha
  simpa [hk] using ha.symm

theorem testBit_eq_of_div {a b k : ℕ} (h : a / 512 = b / 512) (hk : 9 ≤ k) :
    a.testBit k = b.testBit k := by
  obtain ⟨j, rfl⟩ : ∃ j, k = 9 + j := ⟨k - 9, by omega⟩
  rw [← Nat.testBit_shiftRight, ← Nat.testBit_shiftRight,
    Nat.shiftRight_eq_div_pow, Nat.shiftRight_eq_div_pow,
    show (2 : ℕ) ^ 9 = 512 from rfl, h]

theorem cond_eq_of_testBit {a b k : ℕ} (h : a.testBit k = b.testBit k) :
    (a &&& 2 ^ k != 0) = (b &&& 2 ^ k != 0) := by
  rw [Nat.and_two_pow, Nat.and_two_pow, h]

theorem loPart_eq_of_mod {a b : ℕ} (h : a % 512 = b % 512) : loPart a = loPart b := by
  have e : ∀ k, k < 9 → ((a &&& 2 ^ k != 0) = (b &&& 2 ^ k != 0)) := fun k hk =>
    cond_eq_of_testBit (testBit_eq_of_mod (n := 9) (by simpa using h) hk)
  simp only [loPart, e 0 (by norm_num), e 1 (by norm_num), e 2 (by norm_num),
    e 3 (by norm_num), e 4 (by norm_num), e 5 (by norm_num), e 6 (by norm_num),
    e 7 (by norm_num), e 8 (by norm_num)]

theorem hiPart_eq_of_div {a b : ℕ} (h : a / 512 = b / 512) : hiPart a = hiPart b := by
  have e : ∀ k, 9 ≤ k → ((a &&& 2 ^ k != 0) = (b &&& 2 ^ k != 0)) := fun k hk =>
    cond_eq_of_testBit (testBit_eq_of_div h hk)
  simp only [hiPart, e 9 (by norm_num), e 10 (by norm_num), e 11 (by norm_num),
    e 12 (by norm_num), e 13 (by norm_num), e 14 (by norm_num), e 15 (by norm_num),
    e 16 (by norm_num), e 17 (by norm_num), e 18 (by norm_num)]

theorem mk_fst_le {c : ℕ} {b : Bool} (h : c ≤ 2 ^ 128) : (c, b).1 ≤ 2 ^ 128 := h

theorem ratioAcc_le (a : ℕ) : ratioAcc a ≤ 2 ^ 128 := by
  rw [ratioAcc_eq_hi_lo]
  have h1 : loAcc a ≤ 2 ^ 128 := by
    refine chainMul_le_self _ _ ?_
    intro e he
    simp only [loPart, List.mem_cons, List.not_mem_nil, or_false] at he
    rcases he with h | h | h | h | h | h | h | h | h <;> subst h <;>
      exact mk_fst_le (by decide)
  refine le_trans ?_ h1
  unfold hiAcc
  refine le_trans (chainMul_mono _ le_rfl) (chainMul_le_self _ _ ?_)
  intro e he
  simp only [hiPart, List.mem_cons, List.not_mem_nil, or_false] at he
  rcases he with h | h | h | h | h | h | h | h | h | h <;> subst h <;>
    exact mk_fst_le (by decide)

end TickMath

namespace TickMath

theorem gapLo : ∀ lo < 511, loAcc (lo + 1) + 2 ^ 110 ≤ loAcc lo := by decide

end TickMath

namespace TickMath

theorem gapHi : ∀ h < 867, 2 ^ 33 ≤ hiAcc (512 * h) (2 ^ 110) := by decide

end TickMath

namespace TickMath

theorem gapBoundary :
    ∀ h < 866, ratioAcc (512 * (h + 1)) + 2 ^ 33 ≤ ratioAcc (512 * h + 511) := by decide

end TickMath

namespace TickMath

theorem ratio_pair_gap {a : ℕ} (ha : a < 443636) :
    ratioAcc (a + 1) + 2 ^ 33 ≤ ratioAcc a := by
  by_cases hlo : a % 512 = 511
  · have h866 : a / 512 < 866 := by omega
    have hb := gapBoundary (a / 512) h866
    rw [show 512 * (a / 512) + 511 = a by omega,
      show 512 * (a / 512 + 1) = a + 1 by omega] at hb
    exact hb
  · have hlt : a % 512 < 511 := by omega
    have g1 := gapLo (a % 512) hlt
    have la : loAcc a = loAcc (a % 512) := by
      unfold loAcc
      rw [loPart_eq_of_mod (a := a) (b := a % 512) (by omega)]
    have la1 : loAcc (a + 1) = loAcc (a % 512 + 1) := by
      unfold loAcc
      rw [loPart_eq_of_mod (a := a + 1) (b := a % 512 + 1) (by omega)]
    have hhi : hiPart (a + 1) = hiPart a := hiPart_eq_of_div (by omega)
    have hhi2 : hiPart a = hiPart (512 * (a / 512)) :=
      hiPart_eq_of_div (by omega)
    have ghi := gapHi (a / 512) (by omega)
    calc ratioAcc (a + 1) + 2 ^ 33
        = chainMul (loAcc (a % 512 + 1)) (hiPart a) + 2 ^ 33 := by
          rw [ratioAcc_eq_hi_lo, la1]; unfold hiAcc; rw [hhi]
      _ ≤ chainMul (loAcc (a % 512 + 1)) (hiPart a) + chainMul (2 ^ 110) (hiPart a) := by
          have : 2 ^ 33 ≤ chainMul (2 ^ 110) (hiPart a) := by
            unfold hiAcc at ghi
            rw [hhi2]; exact ghi
          omega
      _ ≤ chainMul (loAcc (a % 512 + 1) + 2 ^ 110) (hiPart a) := chainMul_superadd _ _ _
      _ ≤ chainMul (loAcc (a % 512)) (hiPart a) := chainMul_mono _ g1
      _ = ratioAcc a := by rw [ratioAcc_eq_hi_lo, la]; rfl

theorem ratio_anti {a b : ℕ} (hab : a < b) (hb : b ≤ 443636) :
    ratioAcc b + 2 ^ 33 ≤ ratioAcc a := by
  induction b with
  | zero => omega
  | succ n ih =>
    rcases Nat.lt_or_ge a n with h | h
    · have h1 := ih h (by omega)
      have h2 := ratio_pair_gap (a := n) (by omega)
      omega
    · have : a = n := by omega
      subst this
      exact ratio_pair_gap (by omega)

theorem ratio_lower {a : ℕ} (ha : a ≤ 443636) :
    79229651541111879659406241920 ≤ ratioAcc a := by
  have hend : ratioAcc 443636 = 79229651541111879659406241920 := by decide
  rcases Nat.lt_or_ge a 443636 with h | h
  · have := ratio_anti h le_rfl
    omega
  · have : a = 443636 := by omega
    subst this
    omega

end TickMath

namespace TickMath

theorem div_pow32_strict {x y : ℕ} (h : x + 2 ^ 32 ≤ y) : x / 2 ^ 32 < y / 2 ^ 32 := by
  have h1 : (x + 2 ^ 32) / 2 ^ 32 = x / 2 ^ 32 + 1 := Nat.add_div_right x (by norm_num)
  have h2 : (x + 2 ^ 32) / 2 ^ 32 ≤ y / 2 ^ 32 := Nat.div_le_div_right h
  omega

theorem raw_neg {t : ℤ} (h1 : MIN_TICK ≤ t) (h2 : t ≤ 0) :
    sqrtRatioRaw t = ratioAcc t.natAbs / 2 ^ 32 := by
  have ha : t.natAbs ≤ 443636 := by
    simp only [MIN_TICK] at h1; omega
  have hub : ratioAcc t.natAbs / 2 ^ 32 ≤ 2 ^ 96 := by
    have h := ratioAcc_le t.natAbs
    calc ratioAcc t.natAbs / 2 ^ 32 ≤ 2 ^ 128 / 2 ^ 32 := Nat.div_le_div_right h
      _ = 2 ^ 96 := by norm_num
  have hlb : 18447090764788882727 ≤ ratioAcc t.natAbs / 2 ^ 32 := by
    have h := ratio_lower ha
    calc (18447090764788882727 : ℕ)
        = 79229651541111879659406241920 / 2 ^ 32 := by norm_num
      _ ≤ ratioAcc t.natAbs / 2 ^ 32 := Nat.div_le_div_right h
  have hU : (2 : ℕ) ^ 96 ≤ U128MAX := by norm_num [U128MAX]
  have hMIN : MIN_SQRT_RATIO ≤ 18447090764788882727 := by norm_num [ MIN_SQRT_RATIO]
  have hMAX : (2 : ℕ) ^ 96 ≤ MAX_SQRT_RATIO := by norm_num [ MAX_SQRT_RATIO]
  simp only [sqrtRatioRaw]
  rw [if_neg (by omega : ¬ (0 : ℤ) < t)]
  rw [if_neg (by omega : ¬ U128MAX < ratioAcc t.natAbs / 2 ^ 32)]
  rw [Nat.max_eq_left (by omega), Nat.min_eq_left (by omega)]

theorem pos_val_le {a : ℕ} (ha : a ≤ 443636) :
    (2 ^ 256 - 1) / ratioAcc a / 2 ^ 32 ≤ 340275971719517849884101479065584693833 := by
  have h := ratio_lower ha
  have h2 : (2 ^ 256 - 1) / ratioAcc a ≤ (2 ^ 256 - 1) / 79229651541111879659406241920 :=
    Nat.div_le_div_left h (by norm_num)
  have h3 : (2 ^ 256 - 1) / 79229651541111879659406241920 / 2 ^ 32
      = 340275971719517849884101479065584693833 := by norm_num
  calc (2 ^ 256 - 1) / ratioAcc a / 2 ^ 32
      ≤ (2 ^ 256 - 1) / 79229651541111879659406241920 / 2 ^ 32 := Nat.div_le_div_right h2
    _ = _ := h3

theorem pos_val_ge {a : ℕ} (ha : a ≤ 443636) :
    2 ^ 96 - 1 ≤ (2 ^ 256 - 1) / ratioAcc a / 2 ^ 32 := by
  have h := ratioAcc_le a
  have h2 : (2 ^ 256 - 1) / 2 ^ 128 ≤ (2 ^ 256 - 1) / ratioAcc a :=
    Nat.div_le_div_left h (by have := ratio_lower ha; omega)
  have h3 : ((2 : ℕ) ^ 256 - 1) / 2 ^ 128 = 2 ^ 128 - 1 := by norm_num
  have h4 : ((2 : ℕ) ^ 128 - 1) / 2 ^ 32 = 2 ^ 96 - 1 := by norm_num
  calc (2 : ℕ) ^ 96 - 1 = (2 ^ 128 - 1) / 2 ^ 32 := h4.symm
    _ ≤ (2 ^ 256 - 1) / ratioAcc a / 2 ^ 32 := Nat.div_le_div_right (by omega)

theorem raw_pos {t : ℤ} (h1 : 0 < t) (h2 : t ≤ MAX_TICK) :
    sqrtRatioRaw t = (2 ^ 256 - 1) / ratioAcc t.natAbs / 2 ^ 32 := by
  have ha : t.natAbs ≤ 443636 := by
    simp only [MAX_TICK] at h2; omega
  have hub := pos_val_le ha
  have hlb := pos_val_ge ha
  have hU : (340275971719517849884101479065584693833 : ℕ) ≤ U128MAX := by
    norm_num [U128MAX]
  have hMIN : MIN_SQRT_RATIO ≤ (2 : ℕ) ^ 96 - 1 := by norm_num [ MIN_SQRT_RATIO]
  have hMAX : (340275971719517849884101479065584693833 : ℕ) ≤ MAX_SQRT_RATIO := by
    norm_num [ MAX_SQRT_RATIO]
  simp only [sqrtRatioRaw]
  rw [if_pos h1]
  rw [if_neg (by omega : ¬ U128MAX < (2 ^ 256 - 1) / ratioAcc t.natAbs / 2 ^ 32)]
  rw [Nat.max_eq_left (by omega), Nat.min_eq_left (by omega)]

end TickMath

namespace TickMath

theorem pos_div_strict {p q : ℕ} (hq : 0 < q) (hgap : q + 2 ^ 33 ≤ p)
    (hple : p ≤ 2 ^ 128) :
    (2 ^ 256 - 1) / p / 2 ^ 32 < (2 ^ 256 - 1) / q / 2 ^ 32 := by
  have hp0 : 0 < p := by omega
  have h33 : (2 : ℕ) ^ 32 ≤ 2 ^ 33 := by norm_num
  have hqM : q ≤ (2 ^ 256 - 1) / p := by
    have h1 : ((2 : ℕ) ^ 256 - 1) / 2 ^ 128 = 2 ^ 128 - 1 := by norm_num
    have h2 : (2 ^ 256 - 1) / 2 ^ 128 ≤ (2 ^ 256 - 1) / p := Nat.div_le_div_left hple hp0
    omega
  have core : ((2 ^ 256 - 1) / p + 2 ^ 32) * q ≤ 2 ^ 256 - 1 := by
    have e1 : ((2 ^ 256 - 1) / p + 2 ^ 32) * q
        = (2 ^ 256 - 1) / p * q + 2 ^ 32 * q := by ring
    have e2 : 2 ^ 32 * q ≤ 2 ^ 32 * ((2 ^ 256 - 1) / p) := Nat.mul_le_mul_left _ hqM
    have e3 : (2 ^ 256 - 1) / p * q + 2 ^ 32 * ((2 ^ 256 - 1) / p)
        = (2 ^ 256 - 1) / p * (q + 2 ^ 32) := by ring
    have e4 : (2 ^ 256 - 1) / p * (q + 2 ^ 32) ≤ (2 ^ 256 - 1) / p * p :=
      Nat.mul_le_mul_left _ (by omega)
    have e5 : (2 ^ 256 - 1) / p * p ≤ 2 ^ 256 - 1 := Nat.div_mul_le_self _ _
    omega
  have hstep : (2 ^ 256 - 1) / p + 2 ^ 32 ≤ (2 ^ 256 - 1) / q :=
    (Nat.le_div_iff_mul_le hq).2 core
  exact div_pow32_strict hstep

end TickMath

namespace TickMath

theorem raw_strictMono {t1 t2 : ℤ} (h1 : MIN_TICK ≤ t1) (h12 : t1 < t2)
    (h2 : t2 ≤ MAX_TICK) : sqrtRatioRaw t1 < sqrtRatioRaw t2 := by
  have hMINd : MIN_TICK = (-443636 : ℤ) := rfl
  have hMAXd : MAX_TICK = (443636 : ℤ) := rfl
  rcases le_or_lt t2 0 with hneg | hpos2
  · -- both ticks at or below zero
    rw [raw_neg h1 (by omega), raw_neg (by omega) hneg]
    have habs : t2.natAbs < t1.natAbs := by omega
    have hbound : t1.natAbs ≤ 443636 := by omega
    have hgap := ratio_anti habs hbound
    have : ratioAcc t1.natAbs + 2 ^ 32 ≤ ratioAcc t2.natAbs := by
      have : (2 : ℕ) ^ 32 ≤ 2 ^ 33 := by norm_num
      omega
    exact div_pow32_strict this
  rcases le_or_lt t1 0 with hneg1 | hpos1
  · -- t1 at or below zero, t2 above zero
    rw [raw_neg h1 hneg1, raw_pos hpos2 h2]
    have hub : ratioAcc t1.natAbs / 2 ^ 32 ≤ 2 ^ 96 := by
      calc ratioAcc t1.natAbs / 2 ^ 32 ≤ 2 ^ 128 / 2 ^ 32 :=
            Nat.div_le_div_right (ratioAcc_le _)
        _ = 2 ^ 96 := by norm_num
    have hb2 : t2.natAbs ≤ 443636 := by omega
    have hv1 : (2 ^ 256 - 1) / ratioAcc 1 / 2 ^ 32 = 79232123823359799118286999567 := by
      decide
    have hlow : (2 ^ 256 - 1) / ratioAcc 1 / 2 ^ 32
        ≤ (2 ^ 256 - 1) / ratioAcc t2.natAbs / 2 ^ 32 := by
      rcases Nat.lt_or_ge 1 t2.natAbs with hlt | hge
      · have hgap := ratio_anti hlt hb2
        exact le_of_lt (pos_div_strict (by have := ratio_lower hb2; omega) hgap
          (ratioAcc_le _))
      · have : t2.natAbs = 1 := by omega
        rw [this]
    omega
  · -- both ticks above zero
    rw [raw_pos hpos1 (by omega), raw_pos hpos2 h2]
    have habs : t1.natAbs < t2.natAbs := by omega
    have hb2 : t2.natAbs ≤ 443636 := by omega
    have hgap := ratio_anti habs hb2
    exact pos_div_strict (by have := ratio_lower hb2; omega) hgap (ratioAcc_le _)

theorem raw_bounds {t : ℤ} (h1 : MIN_TICK ≤ t) (h2 : t ≤ MAX_TICK) :
    MIN_SQRT_RATIO < sqrtRatioRaw t ∧ sqrtRatioRaw t < MAX_SQRT_RATIO := by
  rcases le_or_lt t 0 with hneg | hpos
  · rw [raw_neg h1 hneg]
    have ha : t.natAbs ≤ 443636 := by
      simp only [MIN_TICK] at h1; omega
    have hub : ratioAcc t.natAbs / 2 ^ 32 ≤ 2 ^ 96 := by
      calc ratioAcc t.natAbs / 2 ^ 32 ≤ 2 ^ 128 / 2 ^ 32 :=
            Nat.div_le_div_right (ratioAcc_le _)
        _ = 2 ^ 96 := by norm_num
    have hlb : 18447090764788882727 ≤ ratioAcc t.natAbs / 2 ^ 32 := by
      have h := ratio_lower ha
      calc (18447090764788882727 : ℕ)
          = 79229651541111879659406241920 / 2 ^ 32 := by norm_num
        _ ≤ ratioAcc t.natAbs / 2 ^ 32 := Nat.div_le_div_right h
    constructor
    · have : MIN_SQRT_RATIO < 18447090764788882727 := by norm_num [ MIN_SQRT_RATIO]
      omega
    · have : (2 : ℕ) ^ 96 < MAX_SQRT_RATIO := by norm_num [ MAX_SQRT_RATIO]
      omega
  · rw [raw_pos hpos h2]
    have ha : t.natAbs ≤ 443636 := by
      simp only [MAX_TICK] at h2; omega
    have hub := pos_val_le ha
    have hlb := pos_val_ge ha
    constructor
    · have : MIN_SQRT_RATIO < (2 : ℕ) ^ 96 - 1 := by norm_num [ MIN_SQRT_RATIO]
      omega
    · have : (340275971719517849884101479065584693833 : ℕ) < MAX_SQRT_RATIO := by
        norm_num [ MAX_SQRT_RATIO]
      omega

end TickMath

/-- C6: `get_sqrt_ratio_at_tick` is strictly monotone over the whole tick
domain: for all ticks `t1 < t2` with both in `[MIN_TICK, MAX_TICK]`, the
computed sqrt ratio at `t1` is strictly below the one at `t2`. -/
theorem C6_sqrt_ratio_strict_mono (t1 t2 : ℤ) (v1 v2 : ℕ)
    (h1 : MIN_TICK ≤ t1) (h12 : t1 < t2) (h2 : t2 ≤ MAX_TICK)
    (hv1 : TickMath.get_sqrt_ratio_at_tick t1 = some v1)
    (hv2 : TickMath.get_sqrt_ratio_at_tick t2 = some v2) : v1 < v2 := by
  unfold TickMath.get_sqrt_ratio_at_tick at hv1 hv2
  rw [if_neg (by omega)] at hv1 hv2
  cases hv1
  cases hv2
  exact TickMath.raw_strictMono h1 h12 h2

/-- Witness for C6 at the concrete ticks 0 and 1. -/
theorem C6_sqrt_ratio_strict_mono_witness :
    (79228162514264337593543950336 : ℕ) < 79232123823359799118286999567 :=
  C6_sqrt_ratio_strict_mono 0 1 _ _ (by decide) (by decide) (by decide)
    (by decide) (by decide)

namespace TickMath

theorem tdiv_mid_bracket {low high : ℤ} (h : low < high) :
    low < Int.tdiv (low + high + 1) 2 ∧ Int.tdiv (low + high + 1) 2 ≤ high := by
  have key : ∀ s : ℤ, 2 * low + 2 ≤ s → s ≤ 2 * high →
      low < Int.tdiv s 2 ∧ Int.tdiv s 2 ≤ high := by
    intro s hs1 hs2
    rcases s with m | m
    · rw [show Int.tdiv (Int.ofNat m) 2 = Int.ofNat (m / 2) from rfl]
      rw [Int.ofNat_eq_natCast] at hs1 hs2 ⊢
      omega
    · rw [show Int.tdiv (Int.negSucc m) 2 = -Int.ofNat ((m + 1) / 2) from rfl]
      rw [Int.negSucc_eq] at hs1 hs2
      rw [Int.ofNat_eq_natCast]
      omega
  exact key _ (by omega) (by omega)

theorem tickSearch_exact {t : ℤ} (ht1 : MIN_TICK ≤ t) (ht2 : t ≤ MAX_TICK) :
    ∀ fuel : ℕ, ∀ low high : ℤ, MIN_TICK ≤ low → low ≤ t → t ≤ high →
      high ≤ MAX_TICK → (high - low).toNat < fuel →
      tickSearch fuel low high (sqrtRatioRaw t) = some t := by
  intro fuel
  induction fuel with
  | zero => intro low high _ _ _ _ hf; omega
  | succ n ih =>
    intro low high hlo hlt hth hhi hf
    unfold tickSearch
    by_cases hlh : low < high
    · rw [if_pos hlh]
      obtain ⟨hm1, hm2⟩ := tdiv_mid_bracket hlh
      set mid := Int.tdiv (low + high + 1) 2 with hmid
      have hmdom1 : MIN_TICK ≤ mid := by omega
      have hmdom2 : mid ≤ MAX_TICK := by omega
      simp only []
      rw [show get_sqrt_ratio_at_tick mid = some (sqrtRatioRaw mid) by
        unfold get_sqrt_ratio_at_tick; rw [if_neg (by omega)]]
      simp only [Option.bind_eq_bind, Option.some_bind]
      by_cases hcmp : sqrtRatioRaw mid ≤ sqrtRatioRaw t
      · rw [if_pos hcmp]
        have hmle : mid ≤ t := by
          by_contra hc
          push_neg at hc
          exact absurd hcmp (not_le.mpr (raw_strictMono ht1 hc hmdom2))
        exact ih mid high hmdom1 hmle hth hhi (by omega)
      · rw [if_neg hcmp]
        have htlt : t < mid := by
          by_contra hc
          push_neg at hc
          rcases eq_or_lt_of_le hc with he | hlt2
          · exact hcmp (le_of_eq (by rw [he]))
          · exact hcmp (le_of_lt (raw_strictMono hmdom1 hlt2 ht2))
        exact ih low (mid - 1) hlo hlt (by omega) (by omega) (by omega)
    · rw [if_neg hlh]
      have : low = t := by omega
      rw [this]

end TickMath

/-- C7: for every tick in the domain, feeding the computed sqrt ratio back
through `get_tick_at_sqrt_ratio` succeeds and recovers a tick at distance at
most one from the original (the binary search in fact recovers it
exactly). -/
theorem C7_tick_round_trip (t : ℤ) (v : ℕ)
    (h1 : MIN_TICK ≤ t) (h2 : t ≤ MAX_TICK)
    (hv : TickMath.get_sqrt_ratio_at_tick t = some v) :
    ∃ t' : ℤ, TickMath.get_tick_at_sqrt_ratio v = some t' ∧ (t' - t).natAbs ≤ 1 := by
  unfold TickMath.get_sqrt_ratio_at_tick at hv
  rw [if_neg (by omega)] at hv
  cases hv
  obtain ⟨hb1, hb2⟩ := TickMath.raw_bounds h1 h2
  refine ⟨t, ?_, by omega⟩
  unfold TickMath.get_tick_at_sqrt_ratio
  rw [if_neg (by omega)]
  exact TickMath.tickSearch_exact h1 h2 887273 MIN_TICK MAX_TICK le_rfl h1 h2 le_rfl
    (by simp only [MIN_TICK, MAX_TICK]; omega)

/-- Witness for C7 at tick 0. -/
theorem C7_tick_round_trip_witness :
    ∃ t' : ℤ, TickMath.get_tick_at_sqrt_ratio 79228162514264337593543950336 = some t' ∧
      (t' - 0).natAbs ≤ 1 :=
  C7_tick_round_trip 0 79228162514264337593543950336 (by decide) (by decide) (by decide)

-- ===========================================================================
-- dex-types: TickInfo, PositionInfo, PoolState, PoolConfig
-- (src/libs/dex-types/src/{tick,position,pool}.rs).  Addresses play no role
-- in the verified claims; the token/factory address fields are omitted and
-- positions are keyed by their tick range (one owner).
-- ===========================================================================

/-- Information stored for each tick with liquidity. -/
structure TickInfo where
  liquidity_gross : ℕ
  liquidity_net : ℤ
  fee_growth_outside_0_x128 : ℕ
  fee_growth_outside_1_x128 : ℕ
  initialized : Bool
deriving Repr, DecidableEq

instance : Inhabited TickInfo := ⟨⟨0, 0, 0, 0, false⟩⟩

/-- The Rust `Default` for `TickInfo`: all fields zero, not initialized. -/
def TickInfo.default : TickInfo := ⟨0, 0, 0, 0, false⟩

/-- Position info stored in the pool contract. -/
structure PositionInfo where
  liquidity : ℕ
  fee_growth_inside_0_last_x128 : ℕ
  fee_growth_inside_1_last_x128 : ℕ
  tokens_owed_0 : ℕ
  tokens_owed_1 : ℕ
deriving Repr, DecidableEq

/-- The Rust `Default` for `PositionInfo`: all fields zero. -/
def PositionInfo.default : PositionInfo := ⟨0, 0, 0, 0, 0⟩

/-- Current pool state. -/
structure PoolState where
  sqrt_price_x96 : ℕ
  tick : ℤ
  liquidity : ℕ
  fee_growth_global_0_x128 : ℕ
  fee_growth_global_1_x128 : ℕ
  protocol_fees_0 : ℤ
  protocol_fees_1 : ℤ
deriving Repr, DecidableEq

/-- Pool configuration (token addresses omitted). -/
structure PoolConfig where
  fee : ℕ
  tick_spacing : ℤ
  max_liquidity_per_tick : ℕ
deriving Repr, DecidableEq

-- ===========================================================================
-- dex-pool storage (src/contracts/dex-pool/src/storage.rs).  The persistent
-- maps are modelled as total maps to Option; `none` is an absent entry.
-- ===========================================================================

/-- The whole storage of one pool contract instance. -/
structure Pool where
  config : PoolConfig
  state : PoolState
  ticks : ℤ → Option TickInfo
  bitmap : ℤ → Option ℕ
  positions : ℤ × ℤ → Option PositionInfo

/-- `get_tick`: absent entries read as the default `TickInfo`. -/
def Pool.get_tick (p : Pool) (tick : ℤ) : TickInfo :=
  (p.ticks tick).getD TickInfo.default

/-- `set_tick`: an empty, uninitialized tick is removed from storage;
anything else is written back. -/
def Pool.set_tick (p : Pool) (tick : ℤ) (info : TickInfo) : Pool :=
  if info.liquidity_gross = 0 ∧ info.initialized = false then
    { p with ticks := fun x => if x = tick then none else p.ticks x }
  else
    { p with ticks := fun x => if x = tick then some info else p.ticks x }

/-- `has_tick`: whether a storage entry exists for the tick. -/
def Pool.has_tick (p : Pool) (tick : ℤ) : Bool := (p.ticks tick).isSome

/-- `get_tick_bitmap_word`: absent words read as zero. -/
def Pool.get_tick_bitmap_word (p : Pool) (word_pos : ℤ) : ℕ :=
  (p.bitmap word_pos).getD 0

/-- `set_tick_bitmap_word`: a zero word is removed from storage. -/
def Pool.set_tick_bitmap_word (p : Pool) (word_pos : ℤ) (w : ℕ) : Pool :=
  if w = 0 then { p with bitmap := fun x => if x = word_pos then none else p.bitmap x }
  else { p with bitmap := fun x => if x = word_pos then some w else p.bitmap x }

/-- `get_position`: absent entries read as the default `PositionInfo`. -/
def Pool.get_position (p : Pool) (key : ℤ × ℤ) : PositionInfo :=
  (p.positions key).getD PositionInfo.default

/-- `set_position`: a position with no liquidity and nothing owed is
removed from storage. -/
def Pool.set_position (p : Pool) (key : ℤ × ℤ) (info : PositionInfo) : Pool :=
  if info.liquidity = 0 ∧ info.tokens_owed_0 = 0 ∧ info.tokens_owed_1 = 0 then
    { p with positions := fun x => if x = key then none else p.positions x }
  else
    { p with positions := fun x => if x = key then some info else p.positions x }

/-- `set_state`. -/
def Pool.set_state (p : Pool) (s : PoolState) : Pool := { p with state := s }

namespace Tick

-- ===========================================================================
-- tick.rs: pure bitmap functions
-- ===========================================================================

/-- `tick_to_bitmap_position`: i32 division truncates toward zero
(`Int.tdiv`); `>> 7` on i32 is an arithmetic shift, that is a floor
division by 128; `rem_euclid` is the Euclidean remainder (`Int.emod`). -/
def tick_to_bitmap_position (tick tick_spacing : ℤ) : ℤ × ℕ :=
  let compressed := Int.tdiv tick tick_spacing
  let word_pos := Int.fdiv compressed 128
  let bit_pos := (Int.emod compressed 128).toNat
  (word_pos, bit_pos)

/-- `bitmap_position_to_tick`. -/
def bitmap_position_to_tick (word_pos bit tick_spacing : ℤ) : ℤ :=
  (word_pos * 128 + bit) * tick_spacing

/-- `create_mask_at_or_below`: `(1 << b) - 1 + (1 << b)`. -/
def create_mask_at_or_below (bit_pos : ℕ) : ℕ := (2 ^ bit_pos - 1) + 2 ^ bit_pos

/-- `create_mask_at_or_above`: the u128 complement of `(1 << b) - 1`. -/
def create_mask_at_or_above (bit_pos : ℕ) : ℕ := U128MAX - (2 ^ bit_pos - 1)

/-- Base-2 floor logarithm as 128 halving steps (enough fuel for any u128
word); structurally recursive so that concrete executions reduce. -/
def log2w : ℕ → ℕ → ℕ
  | 0, _ => 0
  | fuel + 1, n => if n ≤ 1 then 0 else log2w fuel (n / 2) + 1

/-- `find_most_significant_bit`: `127 - leading_zeros`, which for a nonzero
u128 word equals its base-2 logarithm. -/
def find_most_significant_bit (word : ℕ) : Option ℕ :=
  if word = 0 then none else some (log2w 128 word)

/-- `find_least_significant_bit`: `trailing_zeros`; for a nonzero u128 word
this is the position of the lowest set bit, computed here with the
two-complement identity `word &&& (2^128 - word)`. -/
def find_least_significant_bit (word : ℕ) : Option ℕ :=
  if word = 0 then none else some (log2w 128 (word &&& (2 ^ 128 - word)))

/-- `compute_next_tick_lte`. -/
def compute_next_tick_lte (word : ℕ) (word_pos : ℤ) (bit_pos : ℕ)
    (tick_spacing : ℤ) : ℤ × Bool :=
  let mask := create_mask_at_or_below bit_pos
  let masked := word &&& mask
  match find_most_significant_bit masked with
  | some msb => (bitmap_position_to_tick word_pos msb tick_spacing, true)
  | none => (bitmap_position_to_tick word_pos 0 tick_spacing, false)

/-- `compute_next_tick_gt`. -/
def compute_next_tick_gt (word : ℕ) (word_pos : ℤ) (bit_pos : ℕ)
    (tick_spacing : ℤ) : ℤ × Bool :=
  let mask := create_mask_at_or_above bit_pos
  let masked := word &&& mask
  match find_least_significant_bit masked with
  | some lsb => (bitmap_position_to_tick word_pos lsb tick_spacing, true)
  | none => (bitmap_position_to_tick word_pos 127 tick_spacing, false)

-- ===========================================================================
-- tick.rs: pure tick computation functions
-- ===========================================================================

/-- `compute_liquidity_after_update`: new gross and net liquidity, the flip
flag and the seed-fee-growth flag.  Fails on checked arithmetic failures
and on the explicit `Liquidity overflow` panic. -/
def compute_liquidity_after_update (liquidity_gross_before : ℕ)
    (liquidity_net_before liquidity_delta : ℤ) (upper : Bool)
    (max_liquidity : ℕ) (tick tick_current : ℤ) :
    Option (ℕ × ℤ × Bool × Bool) := do
  let liquidity_gross_after ←
    if liquidity_delta < 0 then
      if liquidity_delta = I128MIN then none
      else if liquidity_gross_before < (-liquidity_delta).toNat then none
      else some (liquidity_gross_before - (-liquidity_delta).toNat)
    else chkU128 (liquidity_gross_before + liquidity_delta.toNat)
  if max_liquidity < liquidity_gross_after then none
  else do
    let flipped := decide (liquidity_gross_after = 0) != decide (liquidity_gross_before = 0)
    let should_init_fee_growth :=
      decide (liquidity_gross_before = 0) && decide (tick ≤ tick_current)
    let liquidity_net_after ←
      if upper then chkI128 (liquidity_net_before - liquidity_delta)
      else chkI128 (liquidity_net_before + liquidity_delta)
    pure (liquidity_gross_after, liquidity_net_after, flipped, should_init_fee_growth)

/-- `compute_fee_growth_after_cross`: `fee_growth_global - fee_growth_outside`
for both tokens, with plain (checked) u128 subtraction. -/
def compute_fee_growth_after_cross (fee_growth_outside_0 fee_growth_outside_1
    fee_growth_global_0 fee_growth_global_1 : ℕ) : Option (ℕ × ℕ) := do
  let a ← if fee_growth_global_0 < fee_growth_outside_0 then none
    else some (fee_growth_global_0 - fee_growth_outside_0)
  let b ← if fee_growth_global_1 < fee_growth_outside_1 then none
    else some (fee_growth_global_1 - fee_growth_outside_1)
  pure (a, b)

/-- `compute_fee_growth_below` (checked subtraction). -/
def compute_fee_growth_below (tick tick_current : ℤ)
    (fee_growth_outside_0 fee_growth_outside_1
     fee_growth_global_0 fee_growth_global_1 : ℕ) : Option (ℕ × ℕ) :=
  if tick ≤ tick_current then some (fee_growth_outside_0, fee_growth_outside_1)
  else do
    let a ← if fee_growth_global_0 < fee_growth_outside_0 then none
      else some (fee_growth_global_0 - fee_growth_outside_0)
    let b ← if fee_growth_global_1 < fee_growth_outside_1 then none
      else some (fee_growth_global_1 - fee_growth_outside_1)
    pure (a, b)

/-- `compute_fee_growth_above` (checked subtraction). -/
def compute_fee_growth_above (tick tick_current : ℤ)
    (fee_growth_outside_0 fee_growth_outside_1
     fee_growth_global_0 fee_growth_global_1 : ℕ) : Option (ℕ × ℕ) :=
  if tick_current < tick then some (fee_growth_outside_0, fee_growth_outside_1)
  else do
    let a ← if fee_growth_global_0 < fee_growth_outside_0 then none
      else some (fee_growth_global_0 - fee_growth_outside_0)
    let b ← if fee_growth_global_1 < fee_growth_outside_1 then none
      else some (fee_growth_global_1 - fee_growth_outside_1)
    pure (a, b)

/-- `compute_fee_growth_inside_pure`: `global - below - above` with checked
subtraction. -/
def compute_fee_growth_inside_pure (fee_growth_below_0 fee_growth_below_1
    fee_growth_above_0 fee_growth_above_1
    fee_growth_global_0 fee_growth_global_1 : ℕ) : Option (ℕ × ℕ) := do
  let a0 ← if fee_growth_global_0 < fee_growth_below_0 then none
    else some (fee_growth_global_0 - fee_growth_below_0)
  let a ← if a0 < fee_growth_above_0 then none else some (a0 - fee_growth_above_0)
  let b0 ← if fee_growth_global_1 < fee_growth_below_1 then none
    else some (fee_growth_global_1 - fee_growth_below_1)
  let b ← if b0 < fee_growth_above_1 then none else some (b0 - fee_growth_above_1)
  pure (a, b)

-- ===========================================================================
-- tick.rs: storage functions
-- ===========================================================================

/-- `update`: read the tick, run the pure computation, seed the outside fee
growth when required, mark initialized when becoming nonzero, write back.
Returns the flipped flag. -/
def update (p : Pool) (tick tick_current : ℤ) (liquidity_delta : ℤ)
    (fee_growth_global_0_x128 fee_growth_global_1_x128 : ℕ) (upper : Bool)
    (max_liquidity : ℕ) : Option (Pool × Bool) := do
  let info := p.get_tick tick
  let (liquidity_gross_after, liquidity_net_after, flipped, should_init_fee_growth) ←
    compute_liquidity_after_update info.liquidity_gross info.liquidity_net
      liquidity_delta upper max_liquidity tick tick_current
  let info :=
    if should_init_fee_growth then
      { info with fee_growth_outside_0_x128 := fee_growth_global_0_x128,
                  fee_growth_outside_1_x128 := fee_growth_global_1_x128 }
    else info
  let info :=
    if info.liquidity_gross = 0 ∧ 0 < liquidity_gross_after then
      { info with initialized := true }
    else info
  let info := { info with liquidity_gross := liquidity_gross_after,
                          liquidity_net := liquidity_net_after }
  pure (p.set_tick tick info, flipped)

/-- `cross`: flip the outside fee growth of a tick against the supplied
globals and return its net liquidity. -/
def cross (p : Pool) (tick : ℤ)
    (fee_growth_global_0_x128 fee_growth_global_1_x128 : ℕ) : Option (Pool × ℤ) := do
  let info := p.get_tick tick
  let (new_fee_0, new_fee_1) ← compute_fee_growth_after_cross
    info.fee_growth_outside_0_x128 info.fee_growth_outside_1_x128
    fee_growth_global_0_x128 fee_growth_global_1_x128
  let info2 := { info with fee_growth_outside_0_x128 := new_fee_0,
                           fee_growth_outside_1_x128 := new_fee_1 }
  pure (p.set_tick tick info2, info.liquidity_net)

/-- `get_fee_growth_inside`. -/
def get_fee_growth_inside (p : Pool) (tick_lower tick_upper tick_current : ℤ)
    (fee_growth_global_0_x128 fee_growth_global_1_x128 : ℕ) : Option (ℕ × ℕ) := do
  let lower := p.get_tick tick_lower
  let upper := p.get_tick tick_upper
  let (fee_growth_below_0, fee_growth_below_1) ← compute_fee_growth_below
    tick_lower tick_current lower.fee_growth_outside_0_x128
    lower.fee_growth_outside_1_x128 fee_growth_global_0_x128 fee_growth_global_1_x128
  let (fee_growth_above_0, fee_growth_above_1) ← compute_fee_growth_above
    tick_upper tick_current upper.fee_growth_outside_0_x128
    upper.fee_growth_outside_1_x128 fee_growth_global_0_x128 fee_growth_global_1_x128
  compute_fee_growth_inside_pure fee_growth_below_0 fee_growth_below_1
    fee_growth_above_0 fee_growth_above_1 fee_growth_global_0_x128
    fee_growth_global_1_x128

/-- `flip_tick`: fails on a tick not on spacing, then XORs the bitmap bit. -/
def flip_tick (p : Pool) (tick tick_spacing : ℤ) : Option Pool :=
  if Int.emod tick tick_spacing ≠ 0 then none
  else
    let (word_pos, bit_pos) := tick_to_bitmap_position tick tick_spacing
    let mask : ℕ := 2 ^ bit_pos
    let word := p.get_tick_bitmap_word word_pos
    some (p.set_tick_bitmap_word word_pos (word ^^^ mask))

/-- `next_initialized_tick_within_one_word`. -/
def next_initialized_tick_within_one_word (p : Pool) (tick tick_spacing : ℤ)
    (lte : Bool) : ℤ × Bool :=
  let compressed := Int.tdiv tick tick_spacing
  if lte then
    let (word_pos, bit_pos) := tick_to_bitmap_position tick tick_spacing
    let word := p.get_tick_bitmap_word word_pos
    compute_next_tick_lte word word_pos bit_pos tick_spacing
  else
    let compressed_plus_one := compressed + 1
    let word_pos := Int.fdiv compressed_plus_one 128
    let bit_pos := (Int.emod compressed_plus_one 128).toNat
    let word := p.get_tick_bitmap_word word_pos
    compute_next_tick_gt word word_pos bit_pos tick_spacing

end Tick

namespace Liquidity

-- ===========================================================================
-- liquidity.rs
-- ===========================================================================

/-- `validate_ticks`: range, domain and spacing checks (all panics). -/
def validate_ticks (tick_lower tick_upper tick_spacing : ℤ) : Option Unit :=
  if tick_upper ≤ tick_lower then none
  else if tick_lower < MIN_TICK then none
  else if MAX_TICK < tick_upper then none
  else if Int.emod tick_lower tick_spacing ≠ 0 then none
  else if Int.emod tick_upper tick_spacing ≠ 0 then none
  else some ()

/-- `update_position`: accrue owed fees (wrapping subtraction of the inside
fee growth checkpoints, then the two nested `mul_div` floor divisions by
`2^64`), apply the liquidity delta, refresh the checkpoints, write back. -/
def update_position (p : Pool) (key : ℤ × ℤ) (liquidity_delta : ℤ)
    (fee_growth_inside_0_x128 fee_growth_inside_1_x128 : ℕ) : Option Pool := do
  let position := p.get_position key
  let position ←
    if 0 < position.liquidity then do
      let fee_delta_0 := (fee_growth_inside_0_x128 + 2 ^ 128
        - position.fee_growth_inside_0_last_x128) % 2 ^ 128
      let fee_delta_1 := (fee_growth_inside_1_x128 + 2 ^ 128
        - position.fee_growth_inside_1_last_x128) % 2 ^ 128
      let q128 : ℕ := 2 ^ 64
      let i0 ← DexMath.mul_div fee_delta_0 position.liquidity q128
      let tokens_owed_0 ← DexMath.mul_div i0 1 q128
      let i1 ← DexMath.mul_div fee_delta_1 position.liquidity q128
      let tokens_owed_1 ← DexMath.mul_div i1 1 q128
      let o0 ← chkU128 (position.tokens_owed_0 + tokens_owed_0)
      let o1 ← chkU128 (position.tokens_owed_1 + tokens_owed_1)
      pure { position with tokens_owed_0 := o0, tokens_owed_1 := o1 }
    else pure position
  let liq ← DexMath.add_delta position.liquidity liquidity_delta
  let position := { position with
    liquidity := liq,
    fee_growth_inside_0_last_x128 := fee_growth_inside_0_x128,
    fee_growth_inside_1_last_x128 := fee_growth_inside_1_x128 }
  pure (p.set_position key position)

/-- `mint`: validate, price the liquidity, update both ticks and the bitmap,
update the position, bump the active liquidity when in range.  The token
transfers do not touch pool storage; their `amount as i128` casts must be
nonnegative for the transfer to succeed, which is modelled by the final
guards. -/
def mint (p : Pool) (tick_lower tick_upper : ℤ) (amount : ℕ) :
    Option (ℕ × ℕ × Pool) := do
  if amount = 0 then none
  else do
    let config := p.config
    let state := p.state
    let _ ← validate_ticks tick_lower tick_upper config.tick_spacing
    let sqrt_ratio_lower ← TickMath.get_sqrt_ratio_at_tick tick_lower
    let sqrt_ratio_upper ← TickMath.get_sqrt_ratio_at_tick tick_upper
    let (amount0, amount1) ← DexMath.get_amounts_for_liquidity
      state.sqrt_price_x96 sqrt_ratio_lower sqrt_ratio_upper amount
    let (p, flipped_lower) ← Tick.update p tick_lower state.tick
      (castU128toI128 amount) state.fee_growth_global_0_x128
      state.fee_growth_global_1_x128 false config.max_liquidity_per_tick
    let (p, flipped_upper) ← Tick.update p tick_upper state.tick
      (castU128toI128 amount) state.fee_growth_global_0_x128
      state.fee_growth_global_1_x128 true config.max_liquidity_per_tick
    let p ← if flipped_lower then Tick.flip_tick p tick_lower config.tick_spacing
      else pure p
    let p ← if flipped_upper then Tick.flip_tick p tick_upper config.tick_spacing
      else pure p
    let (fee_growth_inside_0, fee_growth_inside_1) ← Tick.get_fee_growth_inside
      p tick_lower tick_upper state.tick state.fee_growth_global_0_x128
      state.fee_growth_global_1_x128
    let p ← update_position p (tick_lower, tick_upper) (castU128toI128 amount)
      fee_growth_inside_0 fee_growth_inside_1
    let p ←
      if tick_lower ≤ state.tick ∧ state.tick < tick_upper then do
        let liq ← DexMath.add_delta state.liquidity (castU128toI128 amount)
        pure (p.set_state { state with liquidity := liq })
      else pure p
    let _ ← if 0 < amount0 then
        (if castU128toI128 amount0 < 0 then none else some 0) else some 0
    let _ ← if 0 < amount1 then
        (if castU128toI128 amount1 < 0 then none else some 0) else some 0
    pure (amount0, amount1, p)

/-- `burn`: symmetric to mint with a negative delta; the withdrawn amounts
are credited to `tokens_owed` on the position (checked u128 additions). -/
def burn (p : Pool) (tick_lower tick_upper : ℤ) (amount : ℕ) :
    Option (ℕ × ℕ × Pool) := do
  let config := p.config
  let state := p.state
  let _ ← validate_ticks tick_lower tick_upper config.tick_spacing
  let sqrt_ratio_lower ← TickMath.get_sqrt_ratio_at_tick tick_lower
  let sqrt_ratio_upper ← TickMath.get_sqrt_ratio_at_tick tick_upper
  let (amount0, amount1) ← DexMath.get_amounts_for_liquidity
    state.sqrt_price_x96 sqrt_ratio_lower sqrt_ratio_upper amount
  let p ←
    if 0 < amount then do
      let negAmount ← chkI128 (-(castU128toI128 amount))
      let (p, flipped_lower) ← Tick.update p tick_lower state.tick negAmount
        state.fee_growth_global_0_x128 state.fee_growth_global_1_x128 false
        config.max_liquidity_per_tick
      let (p, flipped_upper) ← Tick.update p tick_upper state.tick negAmount
        state.fee_growth_global_0_x128 state.fee_growth_global_1_x128 true
        config.max_liquidity_per_tick
      let p ← if flipped_lower then Tick.flip_tick p tick_lower config.tick_spacing
        else pure p
      let p ← if flipped_upper then Tick.flip_tick p tick_upper config.tick_spacing
        else pure p
      if tick_lower ≤ state.tick ∧ state.tick < tick_upper then do
        let liq ← DexMath.add_delta state.liquidity negAmount
        pure (p.set_state { state with liquidity := liq })
      else pure p
    else pure p
  let (fee_growth_inside_0, fee_growth_inside_1) ← Tick.get_fee_growth_inside
    p tick_lower tick_upper state.tick state.fee_growth_global_0_x128
    state.fee_growth_global_1_x128
  let negAmount2 ← chkI128 (-(castU128toI128 amount))
  let p ← update_position p (tick_lower, tick_upper) negAmount2
    fee_growth_inside_0 fee_growth_inside_1
  let position := p.get_position (tick_lower, tick_upper)
  let o0 ← chkU128 (position.tokens_owed_0 + amount0)
  let o1 ← chkU128 (position.tokens_owed_1 + amount1)
  let p := p.set_position (tick_lower, tick_upper)
    { position with tokens_owed_0 := o0, tokens_owed_1 := o1 }
  pure (amount0, amount1, p)

/-- `collect`: pay out the requested amounts capped at what is owed and
decrement the owed balances.  The transfers leave pool storage untouched;
their `amount as i128` casts must be nonnegative, modelled by the final
guards. -/
def collect (p : Pool) (tick_lower tick_upper : ℤ)
    (amount0_requested amount1_requested : ℕ) : Option (ℕ × ℕ × Pool) := do
  let position := p.get_position (tick_lower, tick_upper)
  let amount0 := min amount0_requested position.tokens_owed_0
  let amount1 := min amount1_requested position.tokens_owed_1
  let position := { position with
    tokens_owed_0 := position.tokens_owed_0 - amount0,
    tokens_owed_1 := position.tokens_owed_1 - amount1 }
  let p := p.set_position (tick_lower, tick_upper) position
  let _ ← if 0 < amount0 then
      (if castU128toI128 amount0 < 0 then none else some 0) else some 0
  let _ ← if 0 < amount1 then
      (if castU128toI128 amount1 < 0 then none else some 0) else some 0
  pure (amount0, amount1, p)

end Liquidity

namespace DexMath

-- ===========================================================================
-- swap_math.rs
-- ===========================================================================

/-- Result of a single swap step computation. -/
structure SwapStepResult where
  sqrt_ratio_next_x96 : ℕ
  amount_in : ℕ
  amount_out : ℕ
  fee_amount : ℕ
deriving Repr, DecidableEq

/-- `compute_swap_step`: one step of the swap loop within a tick range. -/
def compute_swap_step (sqrt_ratio_current_x96 sqrt_ratio_target_x96 liquidity : ℕ)
    (amount_remaining : ℤ) (fee_pips : ℕ) : Option SwapStepResult := do
  let zero_for_one := sqrt_ratio_target_x96 ≤ sqrt_ratio_current_x96
  let exact_in := 0 ≤ amount_remaining
  let feeDenom ← if 1000000 < fee_pips then none else some (1000000 - fee_pips)
  let (sqrt_ratio_next_x96, amount_in0, amount_out0) ←
    if exact_in then do
      let amount_remaining_less_fee ←
        mul_div (castI128toU128 amount_remaining) feeDenom 1000000
      let amount_in ←
        if zero_for_one then
          get_amount0_delta sqrt_ratio_target_x96 sqrt_ratio_current_x96 liquidity true
        else
          get_amount1_delta sqrt_ratio_current_x96 sqrt_ratio_target_x96 liquidity true
      let next ←
        if amount_in ≤ amount_remaining_less_fee then pure sqrt_ratio_target_x96
        else
          get_next_sqrt_price_from_input sqrt_ratio_current_x96 liquidity
            amount_remaining_less_fee zero_for_one
      pure (next, amount_in, 0)
    else do
      let amount_out ←
        if zero_for_one then
          get_amount1_delta sqrt_ratio_target_x96 sqrt_ratio_current_x96 liquidity false
        else
          get_amount0_delta sqrt_ratio_current_x96 sqrt_ratio_target_x96 liquidity false
      let negRem ← chkI128 (-amount_remaining)
      let amount_out_needed := castI128toU128 negRem
      let next ←
        if amount_out ≤ amount_out_needed then pure sqrt_ratio_target_x96
        else
          get_next_sqrt_price_from_output sqrt_ratio_current_x96 liquidity
            amount_out_needed zero_for_one
      pure (next, 0, amount_out)
  let maxReached := sqrt_ratio_target_x96 = sqrt_ratio_next_x96
  let amount_in ←
    if zero_for_one then
      if ¬maxReached ∨ ¬exact_in then
        get_amount0_delta sqrt_ratio_next_x96 sqrt_ratio_current_x96 liquidity true
      else pure amount_in0
    else
      if ¬maxReached ∨ ¬exact_in then
        get_amount1_delta sqrt_ratio_current_x96 sqrt_ratio_next_x96 liquidity true
      else pure amount_in0
  let amount_out ←
    if zero_for_one then
      if ¬maxReached ∨ exact_in then
        get_amount1_delta sqrt_ratio_next_x96 sqrt_ratio_current_x96 liquidity false
      else pure amount_out0
    else
      if ¬maxReached ∨ exact_in then
        get_amount0_delta sqrt_ratio_current_x96 sqrt_ratio_next_x96 liquidity false
      else pure amount_out0
  let amount_out ←
    if ¬exact_in then do
      let negRem ← chkI128 (-amount_remaining)
      pure (if castI128toU128 negRem < amount_out then castI128toU128 negRem
        else amount_out)
    else pure amount_out
  let fee_amount ←
    if exact_in ∧ sqrt_ratio_next_x96 ≠ sqrt_ratio_target_x96 then
      if castI128toU128 amount_remaining < amount_in then none
      else some (castI128toU128 amount_remaining - amount_in)
    else mul_div_rounding_up amount_in fee_pips feeDenom
  pure ⟨sqrt_ratio_next_x96, amount_in, amount_out, fee_amount⟩

end DexMath

namespace Swap

-- ===========================================================================
-- swap.rs: pure functions
-- ===========================================================================

/-- `validate_swap_params`: zero-amount check, price limit defaulting and
direction checks. -/
def validate_swap_params (amount_specified : ℤ) (zero_for_one : Bool)
    (sqrt_price_limit_x96 current_sqrt_price_x96 : ℕ) : Option ℕ := do
  if amount_specified = 0 then none
  else do
    let sqrt_price_limit :=
      if sqrt_price_limit_x96 = 0 then
        if zero_for_one then MIN_SQRT_RATIO + 1 else MAX_SQRT_RATIO - 1
      else sqrt_price_limit_x96
    if zero_for_one then
      if current_sqrt_price_x96 ≤ sqrt_price_limit ∨ sqrt_price_limit ≤ MIN_SQRT_RATIO
      then none else some sqrt_price_limit
    else
      if sqrt_price_limit ≤ current_sqrt_price_x96 ∨ MAX_SQRT_RATIO ≤ sqrt_price_limit
      then none else some sqrt_price_limit

/-- `compute_step_target_price`. -/
def compute_step_target_price (sqrt_price_next_tick_x96 sqrt_price_limit_x96 : ℕ)
    (zero_for_one : Bool) : ℕ :=
  if zero_for_one then
    if sqrt_price_next_tick_x96 < sqrt_price_limit_x96 then sqrt_price_limit_x96
    else sqrt_price_next_tick_x96
  else
    if sqrt_price_limit_x96 < sqrt_price_next_tick_x96 then sqrt_price_limit_x96
    else sqrt_price_next_tick_x96

/-- `update_swap_amounts`: checked u128 addition of input and fee, `as i128`
casts, and checked i128 additions and subtractions. -/
def update_swap_amounts (amount_remaining amount_calculated : ℤ)
    (step_amount_in step_amount_out step_fee_amount : ℕ) (exact_input : Bool) :
    Option (ℤ × ℤ) := do
  let total_in ← chkU128 (step_amount_in + step_fee_amount)
  if exact_input then do
    let r ← chkI128 (amount_remaining - castU128toI128 total_in)
    let c ← chkI128 (amount_calculated - castU128toI128 step_amount_out)
    pure (r, c)
  else do
    let r ← chkI128 (amount_remaining + castU128toI128 step_amount_out)
    let c ← chkI128 (amount_calculated + castU128toI128 total_in)
    pure (r, c)

/-- `compute_fee_growth_delta`: the source computes
`(fee_amount as u128) << 128 / liquidity`, in which the division binds
tighter than the shift, so the shift amount is `128 / liquidity`; a shift
amount of 128 or more is a checked shift overflow, and shifted-out value
bits are silently discarded. -/
def compute_fee_growth_delta (fee_amount liquidity : ℕ) : Option ℕ :=
  if 0 < liquidity then
    if 128 ≤ 128 / liquidity then none
    else some (wrapU128 (fee_amount * 2 ^ (128 / liquidity)))
  else some 0

/-- `compute_tick_transition`. -/
def compute_tick_transition (sqrt_price_x96 sqrt_price_next_tick_x96 : ℕ)
    (tick_next : ℤ) (zero_for_one tick_initialized : Bool) : ℤ × Bool :=
  if sqrt_price_x96 = sqrt_price_next_tick_x96 then
    (if zero_for_one then tick_next - 1 else tick_next, tick_initialized)
  else (tick_next, false)

/-- `compute_final_amounts` (checked i128 subtraction). -/
def compute_final_amounts (amount_specified amount_remaining amount_calculated : ℤ)
    (zero_for_one exact_input : Bool) : Option (ℤ × ℤ) := do
  let d ← chkI128 (amount_specified - amount_remaining)
  if zero_for_one = exact_input then pure (d, amount_calculated)
  else pure (amount_calculated, d)

/-- `should_continue_swap`. -/
def should_continue_swap (amount_remaining : ℤ) (sqrt_price_x96 sqrt_price_limit : ℕ)
    (tick_crossings : ℕ) : Bool :=
  amount_remaining != 0 && sqrt_price_x96 != sqrt_price_limit &&
    tick_crossings < MAX_TICK_CROSSINGS_PER_SWAP

/-- Intermediate state during swap computation (dex-types `SwapState`). -/
structure SwapState where
  amount_remaining : ℤ
  amount_calculated : ℤ
  sqrt_price_x96 : ℕ
  tick : ℤ
  liquidity : ℕ
  fee_growth_global_x128 : ℕ
deriving Repr, DecidableEq

/-- `init_swap_state`. -/
def init_swap_state (amount_specified : ℤ) (sqrt_price_x96 : ℕ) (tick : ℤ)
    (liquidity fee_growth_global_x128 : ℕ) : SwapState :=
  ⟨amount_specified, 0, sqrt_price_x96, tick, liquidity, fee_growth_global_x128⟩

/-- Instrumentation record: one loop iteration of `execute_swap`.  It
captures the inputs and outputs of the step computation; the record is
carried alongside the faithful state so that hypotheses and conclusions
about the executed steps can be stated. -/
structure StepRec where
  pre_sqrt_price : ℕ
  target : ℕ
  next_tick_price : ℕ
  liquidity : ℕ
  step : DexMath.SwapStepResult
deriving Repr, DecidableEq

/-- Instrumentation record: one tick crossing performed by `execute_swap`,
with the fee-growth-global arguments passed to `cross` and the tick entry
before and after. -/
structure CrossRec where
  tick : ℤ
  arg_fee_growth_global_0 : ℕ
  arg_fee_growth_global_1 : ℕ
  before : TickInfo
  after : TickInfo
deriving Repr, DecidableEq

end Swap

namespace Swap

-- ===========================================================================
-- swap.rs: the swap loop and execute_swap.  The Rust while loop is modelled
-- with explicit fuel (running out of fuel is `none`, that is, treated like
-- an execution that does not return).  Besides the faithful results, the
-- model accumulates instrumentation lists of the executed steps and tick
-- crossings; they do not influence the computed state.
-- ===========================================================================

/-- One execution of the swap loop.  `s0` is the pool state read once at the
start of `execute_swap`; the loop passes its fee-growth-global fields to
`cross`. -/
def swap_loop (cfg : PoolConfig) (s0 : PoolState) (sqrt_price_limit : ℕ)
    (exact_input zero_for_one : Bool) :
    ℕ → Pool → SwapState → ℕ → List StepRec → List CrossRec →
    Option (Pool × SwapState × ℕ × List StepRec × List CrossRec)
  | 0, _, _, _, _, _ => none
  | fuel + 1, pool, ss, tick_crossings, steps, crosses =>
    if ¬ should_continue_swap ss.amount_remaining ss.sqrt_price_x96
        sqrt_price_limit tick_crossings then
      some (pool, ss, tick_crossings, steps, crosses)
    else do
      let (tick_next0, tick_init) := Tick.next_initialized_tick_within_one_word
        pool ss.tick cfg.tick_spacing zero_for_one
      let tick_next := min (max tick_next0 MIN_TICK) MAX_TICK
      let sqrt_price_next_x96 ← TickMath.get_sqrt_ratio_at_tick tick_next
      let sqrt_ratio_target_x96 :=
        compute_step_target_price sqrt_price_next_x96 sqrt_price_limit zero_for_one
      let step ← DexMath.compute_swap_step ss.sqrt_price_x96 sqrt_ratio_target_x96
        ss.liquidity ss.amount_remaining cfg.fee
      let (new_amount_remaining, new_amount_calculated) ← update_swap_amounts
        ss.amount_remaining ss.amount_calculated step.amount_in step.amount_out
        step.fee_amount exact_input
      let fee_growth_delta ← compute_fee_growth_delta step.fee_amount ss.liquidity
      let new_fee_growth ← chkU128 (ss.fee_growth_global_x128 + fee_growth_delta)
      let stepRec : StepRec := ⟨ss.sqrt_price_x96, sqrt_ratio_target_x96,
        sqrt_price_next_x96, ss.liquidity, step⟩
      let ss := { ss with amount_remaining := new_amount_remaining,
                          amount_calculated := new_amount_calculated,
                          fee_growth_global_x128 := new_fee_growth,
                          sqrt_price_x96 := step.sqrt_ratio_next_x96 }
      let (new_tick, should_cross) := compute_tick_transition ss.sqrt_price_x96
        sqrt_price_next_x96 tick_next zero_for_one tick_init
      let (pool, ss, tick_crossings, crosses) ←
        if should_cross then do
          let before := pool.get_tick tick_next
          let (pool, liquidity_net) ← Tick.cross pool tick_next
            s0.fee_growth_global_0_x128 s0.fee_growth_global_1_x128
          let crossRec : CrossRec := ⟨tick_next, s0.fee_growth_global_0_x128,
            s0.fee_growth_global_1_x128, before, pool.get_tick tick_next⟩
          let liquidity_delta ←
            if zero_for_one then chkI128 (-liquidity_net) else pure liquidity_net
          let newLiq ← DexMath.add_delta ss.liquidity liquidity_delta
          pure ({ pool with }, { ss with liquidity := newLiq },
            tick_crossings + 1, crosses ++ [crossRec])
        else pure (pool, ss, tick_crossings, crosses)
      let ss ←
        if ss.sqrt_price_x96 = sqrt_price_next_x96 then
          pure { ss with tick := new_tick }
        else if ss.sqrt_price_x96 ≠ s0.sqrt_price_x96 then do
          let t ← TickMath.get_tick_at_sqrt_ratio ss.sqrt_price_x96
          pure { ss with tick := t }
        else pure ss
      swap_loop cfg s0 sqrt_price_limit exact_input zero_for_one fuel pool ss
        tick_crossings (steps ++ [stepRec]) crosses

/-- The final token transfers of `execute_swap`: the negation of the
received (negative) output amount is a checked i128 negation; the transfer
itself touches no pool storage. -/
def final_transfer_check (zero_for_one : Bool) (amount0 amount1 : ℤ) :
    Option ℤ :=
  if zero_for_one then
    if amount1 < 0 then chkI128 (-amount1) else some 0
  else
    if amount0 < 0 then chkI128 (-amount0) else some 0

/-- `execute_swap`: validation, loop, final amounts, state commit.  The
token transfers leave pool storage untouched; the negations of the
received amounts are checked i128 negations. -/
def execute_swap (pool : Pool) (zero_for_one : Bool) (amount_specified : ℤ)
    (sqrt_price_limit_x96 : ℕ) (fuel : ℕ) :
    Option (ℤ × ℤ × Pool × List StepRec × List CrossRec) := do
  let config := pool.config
  let state := pool.state
  let sqrt_price_limit ← validate_swap_params amount_specified zero_for_one
    sqrt_price_limit_x96 state.sqrt_price_x96
  let exact_input := 0 < amount_specified
  let initial_fee_growth := if zero_for_one then state.fee_growth_global_0_x128
    else state.fee_growth_global_1_x128
  let swap_state := init_swap_state amount_specified state.sqrt_price_x96
    state.tick state.liquidity initial_fee_growth
  let (pool2, ss, _, steps, crosses) ← swap_loop config state sqrt_price_limit
    exact_input zero_for_one fuel pool swap_state 0 [] []
  let (amount0, amount1) ← compute_final_amounts amount_specified
    ss.amount_remaining ss.amount_calculated zero_for_one exact_input
  let newState : PoolState :=
    { sqrt_price_x96 := ss.sqrt_price_x96,
      tick := ss.tick,
      liquidity := ss.liquidity,
      fee_growth_global_0_x128 :=
        if zero_for_one then ss.fee_growth_global_x128
        else state.fee_growth_global_0_x128,
      fee_growth_global_1_x128 :=
        if zero_for_one then state.fee_growth_global_1_x128
        else ss.fee_growth_global_x128,
      protocol_fees_0 := state.protocol_fees_0,
      protocol_fees_1 := state.protocol_fees_1 }
  let pool3 := pool2.set_state newState
  let _ ← final_transfer_check zero_for_one amount0 amount1
  pure (amount0, amount1, pool3, steps, crosses)

end Swap

-- ===========================================================================
-- Claim C1
-- ===========================================================================

/-- C1: the fee-growth increment per swap step is specified as
`floor(fee_amount * 2^128 / liquidity)` for positive liquidity.  The source
expression `(fee_amount as u128) << 128 / liquidity` instead shifts by
`128 / liquidity` because the division binds tighter than the shift.  At
the inputs of the repository's own unit test, `fee_amount = 100` and
`liquidity = 1000`, the code produces `100` (a shift by zero) while the
specified value is `floor(100 * 2^128 / 1000)`. -/
theorem C1_fee_growth_delta_precedence_bug :
    Swap.compute_fee_growth_delta 100 1000 = some 100 ∧
      Swap.compute_fee_growth_delta 0 1000 = some 0 ∧
      100 * 2 ^ 128 / 1000 = 34028236692093846346337460743176821145 ∧
      (100 : ℕ) ≠ 34028236692093846346337460743176821145 := by
  refine ⟨by decide, by decide, by norm_num, by norm_num⟩

-- ===========================================================================
-- Claim C2
-- ===========================================================================

/-- A pool with empty storage used for the concrete executions below. -/
def testPool : Pool :=
  { config := { fee := 3000, tick_spacing := 60,
                max_liquidity_per_tick := 383160567313486271402307437174599089 },
    state := { sqrt_price_x96 := Q96, tick := 0, liquidity := 0,
               fee_growth_global_0_x128 := 0, fee_growth_global_1_x128 := 0,
               protocol_fees_0 := 0, protocol_fees_1 := 0 },
    ticks := fun _ => none,
    bitmap := fun _ => none,
    positions := fun _ => none }

/-- C2: the claim states that after every tick update each stored tick
satisfies `initialized` exactly when `liquidity_gross > 0` and that the
entry is removed exactly when the gross liquidity returns to zero.  The
code sets `initialized` when a tick becomes nonzero but never clears it, so
after adding and then removing 1000 units of liquidity at tick 0 the stored
entry persists with `liquidity_gross = 0` and `initialized = true`, and the
storage entry is not removed. -/
theorem C2_update_leaves_stale_entry :
    ∃ p1 p2 : Pool,
      Tick.update testPool 0 0 1000 0 0 false U128MAX = some (p1, true) ∧
      Tick.update p1 0 0 (-1000) 0 0 false U128MAX = some (p2, true) ∧
      (p2.get_tick 0).liquidity_gross = 0 ∧
      (p2.get_tick 0).initialized = true ∧
      p2.has_tick 0 = true := by
  refine ⟨_, _, rfl, rfl, rfl, rfl, rfl⟩

-- ===========================================================================
-- Claim C4
-- ===========================================================================

/-- A pool holding one tick whose outside fee growth exceeds the
fee-growth-global value that a later `cross` passes in. -/
def crossTestPool : Pool :=
  { testPool with
    ticks := fun t =>
      if t = 5 then some ⟨1000, 500, 200, 0, true⟩ else none }

/-- C4: the claim states that `cross` succeeds for every pair of
fee-growth-global values, computing the wrapping difference
`fgg_k - fee_growth_outside_k` modulo `2^128`.  The code uses plain checked
u128 subtraction, so crossing a tick whose stored
`fee_growth_outside_0 = 200` with `fee_growth_global_0 = 100` fails
(checked underflow) instead of storing the wrapped value `2^128 - 100`. -/
theorem C4_cross_checked_subtraction_fails :
    Tick.cross crossTestPool 5 100 0 = none ∧
      Tick.compute_fee_growth_after_cross 200 0 100 0 = none ∧
      (100 + 2 ^ 128 - 200) % 2 ^ 128 = 2 ^ 128 - 100 := by
  refine ⟨rfl, rfl, by norm_num⟩

-- ===========================================================================
-- Claim C3
-- ===========================================================================

/-- The exact real-valued amount of token0 backing `L` units of liquidity
between sqrt prices `p` and `pb` (with `p < pb`), namely
`L * 2^96 * (pb - p) / (pb * p)` as a rational number. -/
def exactAmount0 (p pb L : ℕ) : ℚ := (L : ℚ) * 2 ^ 96 * ((pb : ℚ) - p) / ((pb : ℚ) * p)

/-- The exact real-valued amount of token1 backing `L` units of liquidity
between sqrt prices `pa` and `p` (with `pa < p`): `L * (p - pa) / 2^96`. -/
def exactAmount1 (pa p L : ℕ) : ℚ := (L : ℚ) * ((p : ℚ) - pa) / 2 ^ 96

/-- C3: the claim states that mint prices liquidity with rounding up, so
that each returned amount is at least the exact real-valued cost.  The
code computes both amounts with `mul_div` and plain division, which round
down: minting one unit of liquidity on `[-60, 60]` at price `Q96` returns
`(0, 0)` although the exact costs of both tokens are strictly positive —
the provider receives the liquidity for free. -/
theorem C3_mint_rounds_down_not_up :
    (∃ p' : Pool, Liquidity.mint testPool (-60) 60 1 = some (0, 0, p')) ∧
      0 < exactAmount0 Q96 (TickMath.sqrtRatioRaw 60) 1 ∧
      0 < exactAmount1 (TickMath.sqrtRatioRaw (-60)) Q96 1 := by
  refine ⟨⟨_, rfl⟩, ?_, ?_⟩
  · have hpb : TickMath.sqrtRatioRaw 60 = 79466191966197645195421774832 := by decide
    rw [hpb]
    unfold exactAmount0 Q96
    norm_num
  · have hpa : TickMath.sqrtRatioRaw (-60) = 78990846045029531151608375685 := by decide
    rw [hpa]
    unfold exactAmount1 Q96
    norm_num

-- ===========================================================================
-- Claim C10
-- ===========================================================================

/-- C10: `collect` returns the requested amounts capped at the owed
balances, decrements exactly those owed balances on the stored position
(the complete storage effect is one `set_position` with only the two owed
fields changed), and leaves the pool state, the pool config, the tick map
and the bitmap untouched. -/
theorem C10_collect_caps_and_frame (p : Pool) (tl tu : ℤ) (r0 r1 : ℕ)
    (a0 a1 : ℕ) (p' : Pool)
    (h : Liquidity.collect p tl tu r0 r1 = some (a0, a1, p')) :
    a0 = min r0 (p.get_position (tl, tu)).tokens_owed_0 ∧
    a1 = min r1 (p.get_position (tl, tu)).tokens_owed_1 ∧
    p' = p.set_position (tl, tu)
      { p.get_position (tl, tu) with
        tokens_owed_0 := (p.get_position (tl, tu)).tokens_owed_0 - a0,
        tokens_owed_1 := (p.get_position (tl, tu)).tokens_owed_1 - a1 } ∧
    p'.state = p.state ∧ p'.config = p.config ∧
    p'.ticks = p.ticks ∧ p'.bitmap = p.bitmap := by
  unfold Liquidity.collect at h
  simp only [bind, Option.bind] at h
  repeat' split at h
  all_goals try exact Option.noConfusion h
  all_goals simp only [pure, Option.some.injEq, Prod.mk.injEq] at h
  all_goals obtain ⟨h0, h1, hp⟩ := h
  all_goals subst h0
  all_goals subst h1
  all_goals subst hp
  all_goals refine ⟨rfl, rfl, rfl, ?_, ?_, ?_, ?_⟩
  all_goals unfold Pool.set_position
  all_goals split <;> rfl

/-- A pool holding one position at `(-60, 60)` owing 7 and 3 units. -/
def c10Pool : Pool :=
  { testPool with positions := fun k =>
      if k = ((-60 : ℤ), (60 : ℤ)) then some ⟨10, 1, 2, 7, 3⟩ else none }

/-- The pool produced by collecting `(5, 100)` from `c10Pool`. -/
def c10PoolAfter : Pool :=
  c10Pool.set_position ((-60 : ℤ), (60 : ℤ)) ⟨10, 1, 2, 2, 0⟩

/-- Witness for C10 on a concrete position owing 7 and 3 units: requesting
`(5, 100)` pays out `(5, 3)` and decrements the owed balances. -/
theorem C10_collect_caps_and_frame_witness :
    Liquidity.collect c10Pool (-60) 60 5 100 = some (5, 3, c10PoolAfter) ∧
      (5 = min 5 (c10Pool.get_position ((-60 : ℤ), (60 : ℤ))).tokens_owed_0 ∧
       3 = min 100 (c10Pool.get_position ((-60 : ℤ), (60 : ℤ))).tokens_owed_1 ∧
       c10PoolAfter = c10Pool.set_position ((-60 : ℤ), (60 : ℤ))
         { c10Pool.get_position ((-60 : ℤ), (60 : ℤ)) with
           tokens_owed_0 :=
             (c10Pool.get_position ((-60 : ℤ), (60 : ℤ))).tokens_owed_0 - 5,
           tokens_owed_1 :=
             (c10Pool.get_position ((-60 : ℤ), (60 : ℤ))).tokens_owed_1 - 3 } ∧
       c10PoolAfter.state = c10Pool.state ∧ c10PoolAfter.config = c10Pool.config ∧
       c10PoolAfter.ticks = c10Pool.ticks ∧ c10PoolAfter.bitmap = c10Pool.bitmap) :=
  ⟨rfl, C10_collect_caps_and_frame c10Pool (-60) 60 5 100 5 3 c10PoolAfter rfl⟩

-- ===========================================================================
-- Claim C8
-- ===========================================================================

theorem chkU128_eq_some {n m : ℕ} (h : chkU128 n = some m) : m = n := by
  unfold chkU128 at h
  split at h
  · exact Option.noConfusion h
  · exact (Option.some.inj h).symm

theorem mul_div_q64_q64 {a b i t : ℕ}
    (h1 : DexMath.mul_div a b (2 ^ 64) = some i)
    (h2 : DexMath.mul_div i 1 (2 ^ 64) = some t) :
    t = a * b / 2 ^ 128 := by
  simp only [DexMath.mul_div] at h1 h2
  rw [if_neg (by norm_num)] at h1 h2
  split at h1
  · exact Option.noConfusion h1
  · split at h2
    · exact Option.noConfusion h2
    · obtain rfl := (Option.some.inj h1).symm
      obtain rfl := (Option.some.inj h2).symm
      rw [Nat.mul_one, Nat.div_div_eq_div_mul]
      norm_num

/-- C8: when the stored position has positive liquidity, a successful
`update_position` accrues to each `tokens_owed_k` exactly
`floor((fgi_k - last_k) * liquidity / 2^128)` with a wrapping (mod `2^128`)
subtraction — the two nested floor divisions by `2^64` realised in the code
equal the single floor division by `2^128` — then stores the position with
`liquidity := add_delta(liquidity, delta)` and both fee-growth-inside
checkpoints refreshed to the supplied values. -/
theorem C8_update_position_fee_accrual (p : Pool) (key : ℤ × ℤ) (delta : ℤ)
    (fgi0 fgi1 : ℕ) (p2 : Pool)
    (hpos : 0 < (p.get_position key).liquidity)
    (h : Liquidity.update_position p key delta fgi0 fgi1 = some p2) :
    ∃ liq : ℕ,
      DexMath.add_delta (p.get_position key).liquidity delta = some liq ∧
      p2 = p.set_position key
        { liquidity := liq,
          fee_growth_inside_0_last_x128 := fgi0,
          fee_growth_inside_1_last_x128 := fgi1,
          tokens_owed_0 := (p.get_position key).tokens_owed_0 +
            (fgi0 + 2 ^ 128 - (p.get_position key).fee_growth_inside_0_last_x128)
              % 2 ^ 128 * (p.get_position key).liquidity / 2 ^ 128,
          tokens_owed_1 := (p.get_position key).tokens_owed_1 +
            (fgi1 + 2 ^ 128 - (p.get_position key).fee_growth_inside_1_last_x128)
              % 2 ^ 128 * (p.get_position key).liquidity / 2 ^ 128 } := by
  unfold Liquidity.update_position at h
  simp only [bind, Option.bind_eq_some, Option.pure_def, Option.some.injEq] at h
  rw [if_pos hpos] at h
  simp only [Option.bind_eq_some, Option.some.injEq] at h
  obtain ⟨i0, hI0, t0, hT0, i1, hI1, t1, hT1, o0, hO0, o1, hO1,
    pos1, hpos1, liq, hliq, hp2⟩ := h
  obtain rfl := chkU128_eq_some hO0
  obtain rfl := chkU128_eq_some hO1
  obtain rfl := mul_div_q64_q64 hI0 hT0
  obtain rfl := mul_div_q64_q64 hI1 hT1
  subst hpos1
  subst hp2
  exact ⟨liq, hliq, rfl⟩

/-- A pool holding one position of liquidity 10 at `(0, 60)` with zero
checkpoints, owing 7 and 3 units. -/
def c8Pool : Pool :=
  { testPool with positions := fun k =>
      if k = ((0 : ℤ), (60 : ℤ)) then some ⟨10, 0, 0, 7, 3⟩ else none }

/-- The pool written by `update_position c8Pool (0,60) 5 (2^125) (2^126)`. -/
def c8PoolAfter : Pool :=
  c8Pool.set_position ((0 : ℤ), (60 : ℤ)) ⟨15, 2 ^ 125, 2 ^ 126, 8, 5⟩

/-- Witness for C8: updating the concrete position by `delta = 5` with inside
fee growth `2^125` and `2^126` accrues 1 and 2 owed units and stores
liquidity 15. -/
theorem C8_update_position_fee_accrual_witness :
    0 < (c8Pool.get_position ((0 : ℤ), (60 : ℤ))).liquidity ∧
    Liquidity.update_position c8Pool ((0 : ℤ), (60 : ℤ)) 5 (2 ^ 125) (2 ^ 126) =
      some c8PoolAfter ∧
    ∃ liq : ℕ,
      DexMath.add_delta (c8Pool.get_position ((0 : ℤ), (60 : ℤ))).liquidity 5 =
        some liq ∧
      c8PoolAfter = c8Pool.set_position ((0 : ℤ), (60 : ℤ))
        { liquidity := liq,
          fee_growth_inside_0_last_x128 := 2 ^ 125,
          fee_growth_inside_1_last_x128 := 2 ^ 126,
          tokens_owed_0 := (c8Pool.get_position ((0 : ℤ), (60 : ℤ))).tokens_owed_0 +
            (2 ^ 125 + 2 ^ 128 -
              (c8Pool.get_position ((0 : ℤ), (60 : ℤ))).fee_growth_inside_0_last_x128)
              % 2 ^ 128 * (c8Pool.get_position ((0 : ℤ), (60 : ℤ))).liquidity / 2 ^ 128,
          tokens_owed_1 := (c8Pool.get_position ((0 : ℤ), (60 : ℤ))).tokens_owed_1 +
            (2 ^ 126 + 2 ^ 128 -
              (c8Pool.get_position ((0 : ℤ), (60 : ℤ))).fee_growth_inside_1_last_x128)
              % 2 ^ 128 * (c8Pool.get_position ((0 : ℤ), (60 : ℤ))).liquidity / 2 ^ 128 } :=
  ⟨by decide, rfl,
    C8_update_position_fee_accrual c8Pool ((0 : ℤ), (60 : ℤ)) 5 (2 ^ 125) (2 ^ 126)
      c8PoolAfter (by decide) rfl⟩

-- ===========================================================================
-- Claim C9
-- ===========================================================================

namespace Swap

/-- `get_tick` after `set_tick` returns the written entry whenever the entry
is not removed (removal happens only for an empty, uninitialized tick). -/
theorem get_tick_set_tick (p : Pool) (t : ℤ) (i : TickInfo)
    (h : i.liquidity_gross ≠ 0 ∨ i.initialized = true) :
    (p.set_tick t i).get_tick t = i := by
  unfold Pool.set_tick Pool.get_tick
  split
  · rename_i hrem
    rcases h with h | h
    · exact absurd hrem.1 h
    · rw [hrem.2] at h
      exact Bool.noConfusion h
  · simp

/-- The property of one recorded crossing: the fee-growth-global arguments
passed to `cross` are the globals of `s0` (the pool state read once at the
start of the swap), and the checkpoint flip stored on the tick is the
checked difference against exactly those values. -/
def crossUsesStart (s0 : PoolState) (c : CrossRec) : Prop :=
  c.arg_fee_growth_global_0 = s0.fee_growth_global_0_x128 ∧
  c.arg_fee_growth_global_1 = s0.fee_growth_global_1_x128 ∧
  (c.before.liquidity_gross ≠ 0 ∨ c.before.initialized = true →
    Tick.compute_fee_growth_after_cross c.before.fee_growth_outside_0_x128
      c.before.fee_growth_outside_1_x128 s0.fee_growth_global_0_x128
      s0.fee_growth_global_1_x128 =
      some (c.after.fee_growth_outside_0_x128, c.after.fee_growth_outside_1_x128))

/-- A successful `cross` against the globals of `s0` yields a crossing
record satisfying `crossUsesStart`. -/
theorem cross_yields_crossUsesStart (s0 : PoolState) (pool poolc : Pool)
    (tn net : ℤ)
    (hcross : Tick.cross pool tn s0.fee_growth_global_0_x128
      s0.fee_growth_global_1_x128 = some (poolc, net)) :
    crossUsesStart s0 ⟨tn, s0.fee_growth_global_0_x128,
      s0.fee_growth_global_1_x128, pool.get_tick tn, poolc.get_tick tn⟩ := by
  unfold Tick.cross at hcross
  simp only [bind, Option.bind_eq_some, Option.pure_def, Option.some_bind,
    Option.some.injEq, Prod.mk.injEq] at hcross
  obtain ⟨nf, hnf, hpc, hnet⟩ := hcross
  obtain ⟨nf0, nf1⟩ := nf
  subst hpc
  refine ⟨rfl, rfl, fun hguard => ?_⟩
  dsimp only at hguard ⊢
  have hgs := get_tick_set_tick pool tn
    { pool.get_tick tn with
      fee_growth_outside_0_x128 := nf0,
      fee_growth_outside_1_x128 := nf1 } hguard
  rw [hgs]
  exact hnf

theorem crossUsesStart_of_mem_append {s0 : PoolState} {c cr : CrossRec}
    {crosses : List CrossRec} (hin : c ∈ crosses ++ [cr])
    (hcr : crossUsesStart s0 cr) : c ∈ crosses ∨ crossUsesStart s0 c := by
  rcases List.mem_append.mp hin with h | h
  · exact Or.inl h
  · obtain rfl := List.mem_singleton.mp h
    exact Or.inr hcr

/-- Every crossing recorded by `swap_loop` either was already in the input
accumulator or satisfies `crossUsesStart s0`. -/
theorem swap_loop_crosses_inv (cfg : PoolConfig) (s0 : PoolState)
    (lim : ℕ) (exi z41 : Bool) (fuel : ℕ) :
    ∀ (pool : Pool) (ss : SwapState) (tc : ℕ)
      (steps : List StepRec) (crosses : List CrossRec)
      (out : Pool × SwapState × ℕ × List StepRec × List CrossRec),
      swap_loop cfg s0 lim exi z41 fuel pool ss tc steps crosses = some out →
      ∀ c ∈ out.2.2.2.2, c ∈ crosses ∨ crossUsesStart s0 c := by
  induction fuel with
  | zero =>
    intro pool ss tc steps crosses out h
    exact absurd h (by simp [swap_loop])
  | succ fuel ih =>
    intro pool ss tc steps crosses out h c hc
    rw [swap_loop] at h
    split at h
    · obtain rfl := Option.some.inj h
      exact Or.inl hc
    · split at h
      simp only [bind, Option.bind_eq_some, Option.pure_def, Option.some_bind,
        Option.some.injEq] at h
      obtain ⟨spn, hspn, step, hstep, upd, hupd, h⟩ := h
      obtain ⟨nar, nac⟩ := upd
      simp only [Option.bind_eq_some, Option.pure_def, Option.some_bind] at h
      obtain ⟨fgd, hfgd, nfg, hnfg, h⟩ := h
      split at h
      · -- crossing branch
        simp only [Option.bind_eq_some, Option.pure_def, Option.some_bind] at h
        obtain ⟨pr, hcross, h⟩ := h
        obtain ⟨poolc, net⟩ := pr
        have hprop := cross_yields_crossUsesStart s0 pool poolc _ net hcross
        split at h
        all_goals repeat' split at h
        all_goals simp only [Option.bind_eq_some] at h
        all_goals repeat obtain ⟨_, _, h⟩ := h
        all_goals exact (ih _ _ _ _ _ _ h c hc).elim (fun hin => crossUsesStart_of_mem_append hin hprop) Or.inr
      · -- no crossing
        repeat' split at h
        all_goals try simp only [Option.bind_eq_some] at h
        all_goals repeat obtain ⟨_, _, h⟩ := h
        all_goals exact ih _ _ _ _ _ _ h c hc

end Swap

/-- C9: every tick crossing performed by `execute_swap` passes the
fee-growth-global values read at the start of the swap call to `cross`
(both recorded argument fields equal the pre-swap pool state's globals),
and the crossed tick's stored checkpoint flip is the checked difference
against exactly those start-of-swap values — fees accrued in earlier steps
of the same swap live only in the in-memory swap state and do not enter
the checkpoint. -/
theorem C9_cross_uses_start_of_swap_globals (p : Pool) (z41 : Bool)
    (amount : ℤ) (limit fuel : ℕ) (a0 a1 : ℤ) (p2 : Pool)
    (steps : List Swap.StepRec) (crosses : List Swap.CrossRec)
    (h : Swap.execute_swap p z41 amount limit fuel =
      some (a0, a1, p2, steps, crosses))
    (c : Swap.CrossRec) (hc : c ∈ crosses) :
    c.arg_fee_growth_global_0 = p.state.fee_growth_global_0_x128 ∧
    c.arg_fee_growth_global_1 = p.state.fee_growth_global_1_x128 ∧
    (c.before.liquidity_gross ≠ 0 ∨ c.before.initialized = true →
      Tick.compute_fee_growth_after_cross c.before.fee_growth_outside_0_x128
        c.before.fee_growth_outside_1_x128 p.state.fee_growth_global_0_x128
        p.state.fee_growth_global_1_x128 =
        some (c.after.fee_growth_outside_0_x128,
          c.after.fee_growth_outside_1_x128)) := by
  cases z41
  all_goals unfold Swap.execute_swap at h
  all_goals simp only [bind, Option.bind_eq_some] at h
  all_goals obtain ⟨lim2, hlim, res, hloop, h⟩ := h
  all_goals obtain ⟨pool2, ss2, tc2, steps2, crosses2⟩ := res
  all_goals obtain ⟨am, ham, h⟩ := h
  all_goals obtain ⟨am0, am1⟩ := am
  all_goals simp only [Option.bind_eq_some] at h
  all_goals obtain ⟨g, hg, h⟩ := h
  all_goals have hEq := Option.some.inj h
  all_goals simp only [Prod.mk.injEq] at hEq
  all_goals obtain ⟨h0, h1, hp, hs, hcr⟩ := hEq
  all_goals subst hcr
  all_goals rcases Swap.swap_loop_crosses_inv _ _ _ _ _ _ _ _ _ _ _ _ hloop c hc with hnil | hP
  all_goals first
  | exact absurd hnil (List.not_mem_nil c)
  | exact hP

/-- A pool at tick 60 (price `sqrt_ratio(60)`) with an initialized tick at 0
carrying outside checkpoints `(5, 7)`, and start globals `(1000, 2000)`. -/
def c9Pool : Pool :=
  { config := { fee := 3000, tick_spacing := 60, max_liquidity_per_tick := U128MAX },
    state := { sqrt_price_x96 := 79466191966197645195421774832, tick := 60,
               liquidity := 1000000, fee_growth_global_0_x128 := 1000,
               fee_growth_global_1_x128 := 2000,
               protocol_fees_0 := 0, protocol_fees_1 := 0 },
    ticks := fun t => if t = 0 then some ⟨500000, 500000, 5, 7, true⟩ else none,
    bitmap := fun w => if w = 0 then some 1 else none,
    positions := fun _ => none }

/-- The result of swapping token0 for token1 on `c9Pool` down to the price
limit `Q96`: the swap performs one step (accruing fee 10 into the in-memory
accumulator) and crosses tick 0. -/
def c9Res : ℤ × ℤ × Pool × List Swap.StepRec × List Swap.CrossRec :=
  (Swap.execute_swap c9Pool true (10 ^ 24) Q96 2).getD (0, 0, c9Pool, [], [])

/-- The single crossing performed by the `c9Res` swap: its recorded
arguments are the start globals `(1000, 2000)` — not the in-memory
accumulator `1010` — and the checkpoints flip to `(995, 1993)`. -/
def c9Cross : Swap.CrossRec :=
  ⟨0, 1000, 2000, ⟨500000, 500000, 5, 7, true⟩, ⟨500000, 500000, 995, 1993, true⟩⟩

/-- Witness for C9 on the concrete crossing swap. -/
theorem C9_cross_uses_start_of_swap_globals_witness :
    Swap.execute_swap c9Pool true (10 ^ 24) Q96 2 =
      some (c9Res.1, c9Res.2.1, c9Res.2.2.1, c9Res.2.2.2.1, c9Res.2.2.2.2) ∧
    c9Cross ∈ c9Res.2.2.2.2 ∧
    (c9Cross.arg_fee_growth_global_0 = c9Pool.state.fee_growth_global_0_x128 ∧
     c9Cross.arg_fee_growth_global_1 = c9Pool.state.fee_growth_global_1_x128 ∧
     (c9Cross.before.liquidity_gross ≠ 0 ∨ c9Cross.before.initialized = true →
       Tick.compute_fee_growth_after_cross
         c9Cross.before.fee_growth_outside_0_x128
         c9Cross.before.fee_growth_outside_1_x128
         c9Pool.state.fee_growth_global_0_x128
         c9Pool.state.fee_growth_global_1_x128 =
         some (c9Cross.after.fee_growth_outside_0_x128,
           c9Cross.after.fee_growth_outside_1_x128))) :=
 by
  have hres : Swap.execute_swap c9Pool true (10 ^ 24) Q96 2 =
      some (c9Res.1, c9Res.2.1, c9Res.2.2.1, c9Res.2.2.2.1, c9Res.2.2.2.2) := rfl
  have hmem : c9Cross ∈ c9Res.2.2.2.2 :=
    (show c9Res.2.2.2.2 = [c9Cross] from rfl) ▸ List.mem_singleton.mpr rfl
  exact ⟨hres, hmem,
    C9_cross_uses_start_of_swap_globals c9Pool true (10 ^ 24) Q96 2
      c9Res.1 c9Res.2.1 c9Res.2.2.1 c9Res.2.2.2.1 c9Res.2.2.2.2 hres
      c9Cross hmem⟩

-- ===========================================================================
-- Claim C5
-- ===========================================================================

theorem chkI128_eq_some {z m : ℤ} (h : chkI128 z = some m) : m = z := by
  unfold chkI128 at h
  split at h
  · exact Option.noConfusion h
  · exact (Option.some.inj h).symm

theorem castU128toI128_of_lt {n : ℕ} (h : n < 2 ^ 127) :
    castU128toI128 n = (n : ℤ) := by
  unfold castU128toI128
  rw [if_pos h]

namespace Swap

/-- Per-step sanity conditions of the amended C5 claim: the step's input
plus fee and its output stay below `2^127` (so the `as i128` casts do not
wrap), and the step's next sqrt price lies between the step target and the
pre-step price in the direction of the swap. -/
def stepInRange (z41 : Bool) (s : StepRec) : Prop :=
  s.step.amount_in + s.step.fee_amount < 2 ^ 127 ∧
  s.step.amount_out < 2 ^ 127 ∧
  (z41 = true → s.target ≤ s.step.sqrt_ratio_next_x96 ∧
    s.step.sqrt_ratio_next_x96 ≤ s.pre_sqrt_price) ∧
  (z41 = false → s.pre_sqrt_price ≤ s.step.sqrt_ratio_next_x96 ∧
    s.step.sqrt_ratio_next_x96 ≤ s.target)

/-- Post-relations of one `swap_loop` run between its input swap state and
its output: the price moves monotonically in the swap direction and never
through the limit, and the remaining/calculated amounts move monotonically
in the direction fixed by `exact_input`. -/
def loopPost (lim : ℕ) (z41 exi : Bool) (ss : SwapState)
    (out : Pool × SwapState × ℕ × List StepRec × List CrossRec) : Prop :=
  (z41 = true → out.2.1.sqrt_price_x96 ≤ ss.sqrt_price_x96 ∧
    (lim ≤ ss.sqrt_price_x96 → lim ≤ out.2.1.sqrt_price_x96)) ∧
  (z41 = false → ss.sqrt_price_x96 ≤ out.2.1.sqrt_price_x96 ∧
    (ss.sqrt_price_x96 ≤ lim → out.2.1.sqrt_price_x96 ≤ lim)) ∧
  (exi = true → out.2.1.amount_remaining ≤ ss.amount_remaining ∧
    out.2.1.amount_calculated ≤ ss.amount_calculated) ∧
  (exi = false → ss.amount_remaining ≤ out.2.1.amount_remaining ∧
    ss.amount_calculated ≤ out.2.1.amount_calculated)

/-- The step target never lies beyond the price limit: it is clamped to the
limit in the direction of the swap. -/
theorem target_lim_of_z41 (spn lim : ℕ) (z41 : Bool) :
    (z41 = true → lim ≤ compute_step_target_price spn lim z41) ∧
    (z41 = false → compute_step_target_price spn lim z41 ≤ lim) := by
  constructor <;> intro hz <;> subst hz
  · have he : compute_step_target_price spn lim true =
        if spn < lim then lim else spn := rfl
    rw [he]
    by_cases hc : spn < lim
    · rw [if_pos hc]
    · rw [if_neg hc]; omega
  · have he : compute_step_target_price spn lim false =
        if lim < spn then lim else spn := rfl
    rw [he]
    by_cases hc : lim < spn
    · rw [if_pos hc]
    · rw [if_neg hc]; omega

/-- A successful `update_swap_amounts` with non-wrapping casts moves the
remaining and calculated amounts monotonically. -/
theorem update_swap_amounts_bounds (rem cal : ℤ) (ain aout afee : ℕ)
    (exi : Bool) (r c : ℤ)
    (h : update_swap_amounts rem cal ain aout afee exi = some (r, c))
    (h1 : ain + afee < 2 ^ 127) (h2 : aout < 2 ^ 127) :
    (exi = true → r ≤ rem ∧ c ≤ cal) ∧
    (exi = false → rem ≤ r ∧ cal ≤ c) := by
  unfold update_swap_amounts at h
  simp only [bind, Option.bind_eq_some] at h
  obtain ⟨ti, hti, h⟩ := h
  obtain rfl := chkU128_eq_some hti
  rw [castU128toI128_of_lt h1] at h
  rw [castU128toI128_of_lt h2] at h
  cases exi
  · simp only [Bool.false_eq_true, if_false, Option.bind_eq_some] at h
    obtain ⟨r2, hr2, c2, hc2, h⟩ := h
    obtain rfl := chkI128_eq_some hr2
    obtain rfl := chkI128_eq_some hc2
    obtain ⟨rfl, rfl⟩ := Prod.mk.injEq .. ▸ Option.some.inj h
    refine ⟨fun hx => Bool.noConfusion hx, fun _ => ⟨?_, ?_⟩⟩ <;> omega
  · simp only [if_true, Option.bind_eq_some] at h
    obtain ⟨r2, hr2, c2, hc2, h⟩ := h
    obtain rfl := chkI128_eq_some hr2
    obtain rfl := chkI128_eq_some hc2
    obtain ⟨rfl, rfl⟩ := Prod.mk.injEq .. ▸ Option.some.inj h
    refine ⟨fun _ => ⟨?_, ?_⟩, fun hx => Bool.noConfusion hx⟩ <;> omega

/-- The step trace accumulated by `swap_loop` only grows: every record in
the input accumulator is in the output trace. -/
theorem swap_loop_steps_mono (cfg : PoolConfig) (s0 : PoolState)
    (lim : ℕ) (exi z41 : Bool) (fuel : ℕ) :
    ∀ (pool : Pool) (ss : SwapState) (tc : ℕ)
      (steps : List StepRec) (crosses : List CrossRec)
      (out : Pool × SwapState × ℕ × List StepRec × List CrossRec),
      swap_loop cfg s0 lim exi z41 fuel pool ss tc steps crosses = some out →
      ∀ x ∈ steps, x ∈ out.2.2.2.1 := by
  induction fuel with
  | zero =>
    intro pool ss tc steps crosses out h
    exact absurd h (by simp [swap_loop])
  | succ fuel ih =>
    intro pool ss tc steps crosses out h x hx
    rw [swap_loop] at h
    split at h
    · obtain rfl := Option.some.inj h
      exact hx
    · split at h
      simp only [bind, Option.bind_eq_some, Option.pure_def, Option.some_bind,
        Option.some.injEq] at h
      obtain ⟨spn, hspn, step, hstep, upd, hupd, h⟩ := h
      obtain ⟨nar, nac⟩ := upd
      simp only [Option.bind_eq_some, Option.pure_def, Option.some_bind] at h
      obtain ⟨fgd, hfgd, nfg, hnfg, h⟩ := h
      split at h
      · simp only [Option.bind_eq_some, Option.pure_def, Option.some_bind] at h
        obtain ⟨pr, hcross, h⟩ := h
        obtain ⟨poolc, net⟩ := pr
        split at h
        all_goals repeat' split at h
        all_goals try simp only [Option.bind_eq_some] at h
        all_goals repeat obtain ⟨_, _, h⟩ := h
        all_goals exact ih _ _ _ _ _ _ h x (List.mem_append.mpr (Or.inl hx))
      · repeat' split at h
        all_goals try simp only [Option.bind_eq_some] at h
        all_goals repeat obtain ⟨_, _, h⟩ := h
        all_goals exact ih _ _ _ _ _ _ h x (List.mem_append.mpr (Or.inl hx))

/-- One loop iteration preserves `loopPost`: combining the step's bracket
facts, the target clamp, the amount bounds and the recursive result. -/
theorem post_step_leaf (cfg : PoolConfig) (s0 : PoolState) (lim : ℕ)
    (exi z41 : Bool) (fuel : ℕ)
    (IH : ∀ (pool : Pool) (ss : SwapState) (tc : ℕ) (steps : List StepRec)
      (crosses : List CrossRec)
      (out : Pool × SwapState × ℕ × List StepRec × List CrossRec),
      swap_loop cfg s0 lim exi z41 fuel pool ss tc steps crosses = some out →
      (∀ s ∈ out.2.2.2.1, stepInRange z41 s) → loopPost lim z41 exi ss out)
    {pool2 : Pool} {ss ss3 : SwapState} {tc2 : ℕ}
    {steps : List StepRec} {srec : StepRec} {crosses2 : List CrossRec}
    {out : Pool × SwapState × ℕ × List StepRec × List CrossRec}
    (h : swap_loop cfg s0 lim exi z41 fuel pool2 ss3 tc2 (steps ++ [srec])
      crosses2 = some out)
    (hst : ∀ s ∈ out.2.2.2.1, stepInRange z41 s)
    (hpre : srec.pre_sqrt_price = ss.sqrt_price_x96)
    (hq : ss3.sqrt_price_x96 = srec.step.sqrt_ratio_next_x96)
    (htg : (z41 = true → lim ≤ srec.target) ∧
      (z41 = false → srec.target ≤ lim))
    (hupd : update_swap_amounts ss.amount_remaining ss.amount_calculated
      srec.step.amount_in srec.step.amount_out srec.step.fee_amount exi =
      some (ss3.amount_remaining, ss3.amount_calculated)) :
    loopPost lim z41 exi ss out := by
  have hs := hst srec (swap_loop_steps_mono cfg s0 lim exi z41 fuel _ _ _ _ _ _
    h srec (List.mem_append.mpr (Or.inr (List.mem_singleton.mpr rfl))))
  have hub := update_swap_amounts_bounds _ _ _ _ _ _ _ _ hupd hs.1 hs.2.1
  have hout := IH _ _ _ _ _ _ h hst
  obtain ⟨o1, o2, o3, o4⟩ := hout
  refine ⟨fun hz => ?_, fun hz => ?_, fun he => ?_, fun he => ?_⟩
  · obtain ⟨a, b⟩ := o1 hz
    obtain ⟨c, d⟩ := hs.2.2.1 hz
    rw [hq] at a b
    rw [hpre] at d
    exact ⟨le_trans a d, fun _ => b (le_trans (htg.1 hz) c)⟩
  · obtain ⟨a, b⟩ := o2 hz
    obtain ⟨c, d⟩ := hs.2.2.2 hz
    rw [hq] at a b
    rw [hpre] at c
    exact ⟨le_trans c a, fun _ => b (le_trans d (htg.2 hz))⟩
  · obtain ⟨a, b⟩ := o3 he
    obtain ⟨c, d⟩ := hub.1 he
    exact ⟨le_trans a c, le_trans b d⟩
  · obtain ⟨a, b⟩ := o4 he
    obtain ⟨c, d⟩ := hub.2 he
    exact ⟨le_trans c a, le_trans d b⟩

/-- The swap loop satisfies `loopPost` whenever every recorded step
satisfies `stepInRange`. -/
theorem swap_loop_post (cfg : PoolConfig) (s0 : PoolState)
    (lim : ℕ) (exi z41 : Bool) (fuel : ℕ) :
    ∀ (pool : Pool) (ss : SwapState) (tc : ℕ)
      (steps : List StepRec) (crosses : List CrossRec)
      (out : Pool × SwapState × ℕ × List StepRec × List CrossRec),
      swap_loop cfg s0 lim exi z41 fuel pool ss tc steps crosses = some out →
      (∀ s ∈ out.2.2.2.1, stepInRange z41 s) → loopPost lim z41 exi ss out := by
  induction fuel with
  | zero =>
    intro pool ss tc steps crosses out h
    exact absurd h (by simp [swap_loop])
  | succ fuel ih =>
    intro pool ss tc steps crosses out h hst
    rw [swap_loop] at h
    split at h
    · obtain rfl := Option.some.inj h
      exact ⟨fun _ => ⟨le_refl _, fun hl => hl⟩, fun _ => ⟨le_refl _, fun hl => hl⟩,
        fun _ => ⟨le_refl _, le_refl _⟩, fun _ => ⟨le_refl _, le_refl _⟩⟩
    · split at h
      simp only [bind, Option.bind_eq_some, Option.pure_def, Option.some_bind,
        Option.some.injEq] at h
      obtain ⟨spn, hspn, step, hstep, upd, hupd, h⟩ := h
      obtain ⟨nar, nac⟩ := upd
      simp only [Option.bind_eq_some, Option.pure_def, Option.some_bind] at h
      obtain ⟨fgd, hfgd, nfg, hnfg, h⟩ := h
      split at h
      · simp only [Option.bind_eq_some, Option.pure_def, Option.some_bind] at h
        obtain ⟨pr, hcross, h⟩ := h
        obtain ⟨poolc, net⟩ := pr
        split at h
        all_goals repeat' split at h
        all_goals try simp only [Option.bind_eq_some] at h
        all_goals repeat obtain ⟨_, _, h⟩ := h
        all_goals exact post_step_leaf cfg s0 lim exi z41 fuel ih h hst rfl rfl (target_lim_of_z41 _ _ _) hupd
      · repeat' split at h
        all_goals try simp only [Option.bind_eq_some] at h
        all_goals repeat obtain ⟨_, _, h⟩ := h
        all_goals exact post_step_leaf cfg s0 lim exi z41 fuel ih h hst rfl rfl (target_lim_of_z41 _ _ _) hupd

/-- A successful parameter validation places the effective limit strictly
on the swap side of the current price. -/
theorem validate_bounds (amount : ℤ) (z41 : Bool) (lp cur lim : ℕ)
    (h : validate_swap_params amount z41 lp cur = some lim) :
    (z41 = true → lim < cur) ∧ (z41 = false → cur < lim) := by
  unfold validate_swap_params at h
  cases z41
  all_goals try simp only [Bool.false_eq_true, eq_self_iff_true, ite_true,
    ite_false] at h
  all_goals repeat' split at h
  all_goals try exact Option.noConfusion h
  all_goals obtain rfl := Option.some.inj h
  all_goals refine ⟨fun hz => ?_, fun hz => ?_⟩
  all_goals first
    | exact Bool.noConfusion hz
    | omega

end Swap

/-- C5 (amended): for every swap call that returns and whose executed steps
stay within range — the step input plus fee and the step output below
`2^127` (so the u128-to-i128 casts cannot wrap) and each step's next sqrt
price between the step target and the pre-step price in the direction of
the swap — the post-swap sqrt price moves monotonically in the swap
direction and stays on the swap side of the effective limit, and the
returned amounts have the claimed signs.  Unamended the claim is false:
`C5_wrapped_output_counterexample` exhibits a returning zero-for-one swap
with `amount1 > 0`. -/
theorem C5_swap_post_conditions (p : Pool) (z41 : Bool) (amount : ℤ)
    (limit fuel : ℕ) (a0 a1 : ℤ) (p2 : Pool) (steps : List Swap.StepRec)
    (crosses : List Swap.CrossRec)
    (h : Swap.execute_swap p z41 amount limit fuel =
      some (a0, a1, p2, steps, crosses))
    (hsteps : ∀ s ∈ steps, Swap.stepInRange z41 s) :
    ∀ lim : ℕ,
    Swap.validate_swap_params amount z41 limit p.state.sqrt_price_x96 =
      some lim →
    (z41 = true → p2.state.sqrt_price_x96 ≤ p.state.sqrt_price_x96 ∧
      lim ≤ p2.state.sqrt_price_x96 ∧ 0 ≤ a0 ∧ a1 ≤ 0) ∧
    (z41 = false → p.state.sqrt_price_x96 ≤ p2.state.sqrt_price_x96 ∧
      p2.state.sqrt_price_x96 ≤ lim ∧ 0 ≤ a1 ∧ a0 ≤ 0) := by
  intro limv hval
  unfold Swap.execute_swap at h
  simp only [bind, Option.bind_eq_some] at h
  obtain ⟨lim2, hlim, res, hloop, h⟩ := h
  obtain ⟨pool2, ss2, tc2, steps2, crosses2⟩ := res
  obtain ⟨am, ham, h⟩ := h
  obtain ⟨am0, am1⟩ := am
  simp only [Option.bind_eq_some] at h
  obtain ⟨g, hg, h⟩ := h
  have hEq := Option.some.inj h
  simp only [Prod.mk.injEq] at hEq
  obtain ⟨h0, h1, hp, hsx, hcr⟩ := hEq
  subst h0
  subst h1
  subst hp
  subst hsx
  subst hcr
  have hleq : lim2 = limv := Option.some.inj (hlim.symm.trans hval)
  rw [hleq] at hloop
  have hvb := Swap.validate_bounds amount z41 limit p.state.sqrt_price_x96
    limv hval
  have hpost := Swap.swap_loop_post p.config p.state limv _ z41 fuel p _ 0 [] []
    (pool2, ss2, tc2, steps2, crosses2) hloop hsteps
  obtain ⟨o1, o2, o3, o4⟩ := hpost
  unfold Swap.compute_final_amounts at ham
  simp only [bind, Option.bind_eq_some] at ham
  obtain ⟨d, hd, ham⟩ := ham
  obtain rfl := chkI128_eq_some hd
  split at ham
  · rename_i hc
    have hEq2 := Option.some.inj ham
    simp only [Prod.mk.injEq] at hEq2
    obtain ⟨e0, e1⟩ := hEq2
    subst e0
    subst e1
    refine ⟨fun hz => ?_, fun hz => ?_⟩
    · subst hz
      have hexi : decide (0 < amount) = true := hc.symm
      have o1x : ss2.sqrt_price_x96 ≤ p.state.sqrt_price_x96 ∧
          (limv ≤ p.state.sqrt_price_x96 → limv ≤ ss2.sqrt_price_x96) := o1 rfl
      have o3x : ss2.amount_remaining ≤ amount ∧
          ss2.amount_calculated ≤ 0 := o3 hexi
      refine ⟨o1x.1, o1x.2 (le_of_lt (hvb.1 rfl)), ?_, ?_⟩ <;> omega
    · subst hz
      have hexi : decide (0 < amount) = false := hc.symm
      have o2x : p.state.sqrt_price_x96 ≤ ss2.sqrt_price_x96 ∧
          (p.state.sqrt_price_x96 ≤ limv → ss2.sqrt_price_x96 ≤ limv) := o2 rfl
      have o4x : amount ≤ ss2.amount_remaining ∧
          0 ≤ ss2.amount_calculated := o4 hexi
      refine ⟨o2x.1, o2x.2 (le_of_lt (hvb.2 rfl)), ?_, ?_⟩ <;> omega
  · rename_i hc
    have hEq2 := Option.some.inj ham
    simp only [Prod.mk.injEq] at hEq2
    obtain ⟨e0, e1⟩ := hEq2
    subst e0
    subst e1
    refine ⟨fun hz => ?_, fun hz => ?_⟩
    · subst hz
      have hexi : decide (0 < amount) = false := by
        cases hx : decide (0 < amount)
        · rfl
        · exact absurd (hx ▸ rfl) (Ne.symm hc)
      have o1x : ss2.sqrt_price_x96 ≤ p.state.sqrt_price_x96 ∧
          (limv ≤ p.state.sqrt_price_x96 → limv ≤ ss2.sqrt_price_x96) := o1 rfl
      have o4x : amount ≤ ss2.amount_remaining ∧
          0 ≤ ss2.amount_calculated := o4 hexi
      refine ⟨o1x.1, o1x.2 (le_of_lt (hvb.1 rfl)), ?_, ?_⟩ <;> omega
    · subst hz
      have hexi : decide (0 < amount) = true := by
        cases hx : decide (0 < amount)
        · exact absurd (hx ▸ rfl) (Ne.symm hc)
        · rfl
      have o2x : p.state.sqrt_price_x96 ≤ ss2.sqrt_price_x96 ∧
          (p.state.sqrt_price_x96 ≤ limv → ss2.sqrt_price_x96 ≤ limv) := o2 rfl
      have o3x : ss2.amount_remaining ≤ amount ∧
          ss2.amount_calculated ≤ 0 := o3 hexi
      refine ⟨o2x.1, o2x.2 (le_of_lt (hvb.2 rfl)), ?_, ?_⟩ <;> omega

/-- A pool whose active liquidity is `2^127`, at tick 60000, with no
initialized ticks. -/
def c5Pool : Pool :=
  { config := { fee := 3000, tick_spacing := 60, max_liquidity_per_tick := U128MAX },
    state := { sqrt_price_x96 := 1591101516320542774261326897413, tick := 60000,
               liquidity := 2 ^ 127, fee_growth_global_0_x128 := 0,
               fee_growth_global_1_x128 := 0,
               protocol_fees_0 := 0, protocol_fees_1 := 0 },
    ticks := fun _ => none,
    bitmap := fun _ => none,
    positions := fun _ => none }

/-- A price limit one step below the current price of `c5Pool`. -/
def c5Limit : ℕ := 1491101516320542774261326897413

/-- The result of the counterexample swap on `c5Pool`. -/
def c5xRes : ℤ × ℤ × Pool × List Swap.StepRec × List Swap.CrossRec :=
  (Swap.execute_swap c5Pool true (10 ^ 6) c5Limit 2).getD (0, 0, c5Pool, [], [])

/-- C5 counterexample: with active liquidity `2^127` the `liquidity << 96`
shift in `get_amount0_for_liquidity` wraps to zero (so `amount_in = 0`) and
the step output `amount_out ≥ 2^127` wraps negative through the `as i128`
cast in `update_swap_amounts`, so this zero-for-one swap returns with
`amount1 = 2^128 - amount_out > 0`, violating the claimed `amount1 ≤ 0`. -/
theorem C5_wrapped_output_counterexample :
    Swap.execute_swap c5Pool true (10 ^ 6) c5Limit 2 =
      some (c5xRes.1, c5xRes.2.1, c5xRes.2.2.1, c5xRes.2.2.2.1, c5xRes.2.2.2.2) ∧
    0 < c5xRes.2.1 := by
  constructor
  · rfl
  · rw [show c5xRes.2.1 = 125534002120938463463374607431768211456 from rfl]
    norm_num

/-- A pool with ordinary liquidity `10^6` at tick 60 used for the C5
witness: its single swap step stays entirely in range. -/
def c5wPool : Pool :=
  { config := { fee := 3000, tick_spacing := 60, max_liquidity_per_tick := U128MAX },
    state := { sqrt_price_x96 := 79466191966197645195421774832, tick := 60,
               liquidity := 1000000, fee_growth_global_0_x128 := 0,
               fee_growth_global_1_x128 := 0,
               protocol_fees_0 := 0, protocol_fees_1 := 0 },
    ticks := fun _ => none,
    bitmap := fun _ => none,
    positions := fun _ => none }

/-- The result of swapping token0 for token1 on `c5wPool` down to `Q96`. -/
def c5wRes : ℤ × ℤ × Pool × List Swap.StepRec × List Swap.CrossRec :=
  (Swap.execute_swap c5wPool true (10 ^ 24) Q96 2).getD (0, 0, c5wPool, [], [])

/-- The single step executed by the `c5wRes` swap. -/
def c5wStep : Swap.StepRec :=
  ⟨79466191966197645195421774832, Q96, Q96, 1000000, ⟨Q96, 2996, 3004, 10⟩⟩

/-- Witness for C5 on a concrete in-range swap: one step from tick 60 down
to the limit `Q96`; the post price equals the limit and the amounts have
the claimed signs. -/
theorem C5_swap_post_conditions_witness :
    Swap.execute_swap c5wPool true (10 ^ 24) Q96 2 =
      some (c5wRes.1, c5wRes.2.1, c5wRes.2.2.1, c5wRes.2.2.2.1, c5wRes.2.2.2.2) ∧
    (∀ s ∈ c5wRes.2.2.2.1, Swap.stepInRange true s) ∧
    Swap.validate_swap_params (10 ^ 24) true Q96 c5wPool.state.sqrt_price_x96 =
      some Q96 ∧
    ((true = true → c5wRes.2.2.1.state.sqrt_price_x96 ≤
        c5wPool.state.sqrt_price_x96 ∧
      Q96 ≤ c5wRes.2.2.1.state.sqrt_price_x96 ∧
      0 ≤ c5wRes.1 ∧ c5wRes.2.1 ≤ 0) ∧
     (true = false → c5wPool.state.sqrt_price_x96 ≤
        c5wRes.2.2.1.state.sqrt_price_x96 ∧
      c5wRes.2.2.1.state.sqrt_price_x96 ≤ Q96 ∧
      0 ≤ c5wRes.2.1 ∧ c5wRes.1 ≤ 0)) := by
  have hres : Swap.execute_swap c5wPool true (10 ^ 24) Q96 2 =
      some (c5wRes.1, c5wRes.2.1, c5wRes.2.2.1, c5wRes.2.2.2.1, c5wRes.2.2.2.2) := rfl
  have hst : ∀ s ∈ c5wRes.2.2.2.1, Swap.stepInRange true s := by
    intro s hs
    rw [show c5wRes.2.2.2.1 = [c5wStep] from rfl] at hs
    obtain rfl := List.mem_singleton.mp hs
    refine ⟨by decide, by decide, fun _ => ⟨by decide, by decide⟩,
      fun hx => Bool.noConfusion hx⟩
  exact ⟨hres, hst, rfl,
    C5_swap_post_conditions c5wPool true (10 ^ 24) Q96 2
      c5wRes.1 c5wRes.2.1 c5wRes.2.2.1 c5wRes.2.2.2.1 c5wRes.2.2.2.2 hres hst
      Q96 rfl⟩
